import Mathlib

/-!
Verification development for the splurge-tools data-processing core.

The Python sources are shallowly embedded: Python `str` values are modelled
as `List Char`, rows as `List (List Char)`, and each Python function of the
core becomes a Lean function with the same structure.  Fallible operations
(functions that raise) return `Except String _`.

Layout: all definitions come first, then all theorems.
-/

set_option autoImplicit false
set_option linter.unusedVariables false

namespace Splurge

/-! ## Definitions: Python string primitives -/

/-- Python string, modelled as its list of characters. -/
abbrev PyStr := List Char

/-- Characters of a Lean string literal, for writing concrete `PyStr` values. -/
def chars (s : String) : PyStr := s.data

instance {ε α : Type} [DecidableEq ε] [DecidableEq α] : DecidableEq (Except ε α) :=
  fun x y =>
    match x, y with
    | .ok a, .ok b =>
      if h : a = b then .isTrue (by rw [h])
      else .isFalse (fun hc => h (Except.ok.inj hc))
    | .error e, .error e2 =>
      if h : e = e2 then .isTrue (by rw [h])
      else .isFalse (fun hc => h (Except.error.inj hc))
    | .ok _, .error _ => .isFalse (fun hc => Except.noConfusion hc)
    | .error _, .ok _ => .isFalse (fun hc => Except.noConfusion hc)

/-- The ASCII whitespace characters recognised by Python's `str.strip()` and
by the regex class `\s` (the Unicode extras are irrelevant to this code). -/
def isPySpace (c : Char) : Bool :=
  c = ' ' || c = '\t' || c = '\n' || c = '\r' || c = '\x0b' || c = '\x0c'

/-- Python `str.strip()`: remove leading and trailing whitespace. -/
def pyStrip (cs : PyStr) : PyStr :=
  ((cs.dropWhile isPySpace).reverse.dropWhile isPySpace).reverse

/-- Python `str.lower()` (ASCII case mapping; inputs here are ASCII). -/
def pyLower (cs : PyStr) : PyStr :=
  cs.map Char.toLower

/-- `startsWithL p l` holds when `p` is a leading substring of `l`
(Python `str.startswith`). -/
def startsWithL : PyStr → PyStr → Bool
  | [], _ => true
  | _ :: _, [] => false
  | p :: ps, c :: cs => p = c && startsWithL ps cs

/-- Python `str.endswith`. -/
def endsWithL (p l : PyStr) : Bool :=
  startsWithL p.reverse l.reverse

/-- Index of the first occurrence of substring `d` in `cs`, if any
(the scan underlying Python's `str.split`). -/
def findSub (cs d : PyStr) : Option Nat :=
  (List.range (cs.length + 1)).find? (fun i => startsWithL d (cs.drop i))

/-- Python `str.split(sep)` for a non-empty separator: non-overlapping
left-to-right splitting, preserving empty fields.  (Python raises on an
empty separator; callers below guard that case, and we return `[cs]`.) -/
def pySplit (cs d : PyStr) : List PyStr :=
  if hd : d = [] then [cs]
  else
    match h : findSub cs d with
    | none => [cs]
    | some i => cs.take i :: pySplit (cs.drop (i + d.length)) d
termination_by cs.length
decreasing_by
  have key : ∀ p l : List Char, startsWithL p l = true → p.length ≤ l.length := by
    intro p
    induction p with
    | nil => intro l _; exact Nat.zero_le _
    | cons x xs ih =>
      intro l hl
      cases l with
      | nil => simp [startsWithL] at hl
      | cons c cs2 =>
        simp only [startsWithL, Bool.and_eq_true] at hl
        simpa using Nat.succ_le_succ (ih _ hl.2)
  have hp := List.find?_some h
  have hmem := List.mem_of_find?_eq_some h
  have hlt : i < cs.length + 1 := List.mem_range.mp hmem
  have hlen := key _ _ hp
  have hdlen : 0 < d.length := List.length_pos.mpr hd
  have hdrop : (cs.drop (i + d.length)).length = cs.length - (i + d.length) :=
    List.length_drop _ _
  have hdrop2 : (cs.drop i).length = cs.length - i := List.length_drop _ _
  omega

/-- Number of non-overlapping occurrences of `d` in `cs` found by the same
left-to-right scan as `pySplit`. -/
def countOcc (cs d : PyStr) : Nat :=
  if hd : d = [] then 0
  else
    match h : findSub cs d with
    | none => 0
    | some i => countOcc (cs.drop (i + d.length)) d + 1
termination_by cs.length
decreasing_by
  have key : ∀ p l : List Char, startsWithL p l = true → p.length ≤ l.length := by
    intro p
    induction p with
    | nil => intro l _; exact Nat.zero_le _
    | cons x xs ih =>
      intro l hl
      cases l with
      | nil => simp [startsWithL] at hl
      | cons c cs2 =>
        simp only [startsWithL, Bool.and_eq_true] at hl
        simpa using Nat.succ_le_succ (ih _ hl.2)
  have hp := List.find?_some h
  have hmem := List.mem_of_find?_eq_some h
  have hlt : i < cs.length + 1 := List.mem_range.mp hmem
  have hlen := key _ _ hp
  have hdlen : 0 < d.length := List.length_pos.mpr hd
  have hdrop : (cs.drop (i + d.length)).length = cs.length - (i + d.length) :=
    List.length_drop _ _
  have hdrop2 : (cs.drop i).length = cs.length - i := List.length_drop _ _
  omega

/-! ## Definitions: string_tokenizer.py -/

namespace StringTokenizer

/-- `StringTokenizer.parse` from src/splurge_tools/string_tokenizer.py:
split `content` on `delimiter`, optionally stripping each token; an empty
delimiter raises `ValueError`; whitespace-only content with `strip=True`
returns the empty list.  (The Python `content is None` guard has no
counterpart: the embedded domain is strings.) -/
def parse (content delimiter : PyStr) (strip : Bool) : Except String (List PyStr) :=
  if delimiter = [] then
    .error "Delimiter cannot be empty or None"
  else if strip && decide (pyStrip content = []) then
    .ok []
  else
    let result := pySplit content delimiter
    .ok (if strip then result.map pyStrip else result)

/-- `StringTokenizer.remove_bookends` from
src/splurge_tools/string_tokenizer.py.  The slice
`value[len(bookend):-len(bookend)]` is `drop (len bookend)` of
`take (len value - len bookend)`; for an empty bookend the Python slice
`value[0:-0]` is `value[0:0] = ""`, modelled by the inner `if`.  The Python
comparison `len(value) > 2*len(bookend) - 1` is over integers; for a
non-empty bookend the Nat subtraction below agrees with it, and for an
empty bookend both models return the same final result. -/
def remove_bookends (content bookend : PyStr) (strip : Bool) : PyStr :=
  let value := if strip then pyStrip content else content
  if startsWithL bookend value && endsWithL bookend value &&
      decide (value.length > 2 * bookend.length - 1) then
    if bookend.length = 0 then []
    else (value.take (value.length - bookend.length)).drop bookend.length
  else value

end StringTokenizer

/-! ## Definitions: type_helper.py — DataType and regex machinery -/

/-- The `DataType` enumeration of src/splurge_tools/type_helper.py. -/
inductive DataType where
  | STRING | INTEGER | FLOAT | BOOLEAN | DATE | TIME | DATETIME | MIXED | EMPTY | NONE
deriving DecidableEq, Repr

/-- Tokens of the anchored regular expressions used by the `String` class.
Each class-level regex below is translated token by token; `optCls` models
`[...]?`, `digitsPlus` models `\d+`, `spacesStar` models `\s*` and
`litAlt` an alternation of literals.  A `( ... )?` group is expanded into
top-level alternatives (see `matchAlts`), which preserves the anchored
regex's acceptance.  `\d` is modelled as an ASCII digit (the inputs of
interest are ASCII). -/
inductive Tok where
  | digits (n : Nat)
  | digitsRange (lo hi : Nat)
  | digitsPlus
  | cls (s : List Char)
  | optCls (s : List Char)
  | spacesStar
  | litAlt (ss : List (List Char))

/-- Full-match semantics of an anchored regex (`^ ... $`): `matchToks ts cs`
holds when some reading of the tokens consumes exactly `cs`.  All the
class-level regexes of `type_helper.py` are anchored on both sides, so the
backtracking regex engine succeeds on them exactly when such a reading
exists. -/
def matchToks : List Tok → List Char → Bool
  | [], cs => cs.isEmpty
  | .digits n :: ts, cs =>
      decide ((cs.take n).length = n) && (cs.take n).all Char.isDigit &&
        matchToks ts (cs.drop n)
  | .digitsRange lo hi :: ts, cs =>
      (List.range (hi + 1 - lo)).any (fun k =>
        let n := hi - k
        decide ((cs.take n).length = n) && (cs.take n).all Char.isDigit &&
          matchToks ts (cs.drop n))
  | .digitsPlus :: ts, cs =>
      let r := (cs.takeWhile Char.isDigit).length
      decide (0 < r) && (List.range r).any (fun j => matchToks ts (cs.drop (r - j)))
  | .cls _ :: _, [] => false
  | .cls s :: ts, c :: cs => s.contains c && matchToks ts cs
  | .optCls _ :: ts, [] => matchToks ts []
  | .optCls s :: ts, c :: cs => (s.contains c && matchToks ts cs) || matchToks ts (c :: cs)
  | .spacesStar :: ts, cs =>
      let r := (cs.takeWhile isPySpace).length
      (List.range (r + 1)).any (fun k => matchToks ts (cs.drop k))
  | .litAlt ss :: ts, cs =>
      ss.any (fun s => startsWithL s cs && matchToks ts (cs.drop s.length))

/-- An anchored regex given as alternatives (the expansion of its optional
groups): accepted when some alternative matches the whole input. -/
def matchAlts (alts : List (List Tok)) (cs : List Char) : Bool :=
  alts.any (fun ts => matchToks ts cs)

/-- The separator class of `-`, `/` and `.` used by the date and datetime
regexes. -/
def sepCls : List Char := ['-', '/', '.']

/-- `_DATE_YYYY_MM_DD_REGEX`. -/
def dateYmdToks : List Tok :=
  [.digits 4, .optCls sepCls, .digits 2, .optCls sepCls, .digits 2]

/-- `_DATE_MM_DD_YYYY_REGEX`. -/
def dateMdyToks : List Tok :=
  [.digits 2, .optCls sepCls, .digits 2, .optCls sepCls, .digits 4]

/-- `_DATETIME_YYYY_MM_DD_REGEX`, its nested optional groups
`([:]?\d{2}([.]?\d{5})?)?` expanded into three alternatives (note: the
fraction group of the source regex demands exactly five digits). -/
def datetimeYmdAlts : List (List Tok) :=
  [[.digits 4, .optCls sepCls, .digits 2, .optCls sepCls, .digits 2,
    .optCls ['T'], .digits 2, .optCls [':'], .digits 2],
   [.digits 4, .optCls sepCls, .digits 2, .optCls sepCls, .digits 2,
    .optCls ['T'], .digits 2, .optCls [':'], .digits 2, .optCls [':'], .digits 2],
   [.digits 4, .optCls sepCls, .digits 2, .optCls sepCls, .digits 2,
    .optCls ['T'], .digits 2, .optCls [':'], .digits 2, .optCls [':'], .digits 2,
    .optCls ['.'], .digits 5]]

/-- `_DATETIME_MM_DD_YYYY_REGEX`, optional groups expanded likewise. -/
def datetimeMdyAlts : List (List Tok) :=
  [[.digits 2, .optCls sepCls, .digits 2, .optCls sepCls, .digits 4,
    .optCls ['T'], .digits 2, .optCls [':'], .digits 2],
   [.digits 2, .optCls sepCls, .digits 2, .optCls sepCls, .digits 4,
    .optCls ['T'], .digits 2, .optCls [':'], .digits 2, .optCls [':'], .digits 2],
   [.digits 2, .optCls sepCls, .digits 2, .optCls sepCls, .digits 4,
    .optCls ['T'], .digits 2, .optCls [':'], .digits 2, .optCls [':'], .digits 2,
    .optCls ['.'], .digits 5]]

/-- `_TIME_24HOUR_REGEX`, the group `(:(\d{2})([.](\d+))?)?` expanded into
three alternatives. -/
def time24Alts : List (List Tok) :=
  [[.digitsRange 1 2, .cls [':'], .digits 2],
   [.digitsRange 1 2, .cls [':'], .digits 2, .cls [':'], .digits 2],
   [.digitsRange 1 2, .cls [':'], .digits 2, .cls [':'], .digits 2,
    .cls ['.'], .digitsPlus]]

/-- `_TIME_12HOUR_REGEX` (the alternation is the literal `AM|PM|am|pm`). -/
def time12Alts : List (List Tok) :=
  time24Alts.map (fun ts =>
    ts ++ [.spacesStar, .litAlt [chars "AM", chars "PM", chars "am", chars "pm"]])

/-- `_TIME_COMPACT_REGEX`, the optional seconds group expanded. -/
def timeCompactAlts : List (List Tok) :=
  [[.digits 2, .digits 2], [.digits 2, .digits 2, .digits 2]]

/-- Drop one leading `+` or `-` sign (the `[-+]?` regex piece). -/
def dropSign : PyStr → PyStr
  | [] => []
  | c :: rest => if c = '-' || c = '+' then rest else c :: rest

/-- `_INTEGER_REGEX`: `^[-+]?\d+$`. -/
def matchIntegerRegex (cs : PyStr) : Bool :=
  let t := dropSign cs
  !t.isEmpty && t.all Char.isDigit

/-- `_FLOAT_REGEX`: `^[-+]?(\d+)?\.(\d+)?$` — both digit groups are
optional, so a bare dot (optionally signed) matches. -/
def matchFloatRegex (cs : PyStr) : Bool :=
  let t := dropSign cs
  let rest := t.dropWhile Char.isDigit
  match rest with
  | '.' :: frac => frac.all Char.isDigit
  | _ => false

/-! ## Definitions: type_helper.py — the strptime model

`_is_date_like`, `_is_time_like` and `_is_datetime_like` try
`datetime.strptime` over fixed pattern lists.  CPython's `_strptime`
compiles each format into one regex (directive fragments listed below),
finds the first match by backtracking, raises if unconverted data remains,
and then constructs the `date`/`datetime`, which validates calendar day,
and rejects seconds ≥ 60 and year 0. -/

/-- strptime format directives appearing in the source's pattern lists.
`lit c` is a literal character; `ws` is a whitespace run (a space in the
format string matches `\s+`). -/
inductive Fmt where
  | Y | m | d | H | I | M | S | f | p | lit (c : Char) | ws

/-- Fields collected by strptime (defaults: 1900-01-01, midnight). -/
structure TMF where
  y : Nat
  mo : Nat
  dy : Nat
  h24 : Option Nat
  h12 : Option Nat
  mi : Nat
  se : Nat
  frac : Nat
  pm : Option Bool
deriving DecidableEq

/-- Initial strptime field record. -/
def tmf0 : TMF := ⟨1900, 1, 1, none, none, 0, 0, 0, none⟩

/-- Numeric value of an ASCII digit. -/
def digitVal (c : Char) : Nat := c.toNat - 48

/-- Two-digit numeral value. -/
def d2val (a b : Char) : Nat := digitVal a * 10 + digitVal b

/-- Match a two-digit alternative (regex pieces like `1[0-2]`, `[0-5]\d`). -/
def match2 (test : Char → Char → Bool) (cs : PyStr) : List (Nat × PyStr) :=
  match cs with
  | a :: b :: rest => if a.isDigit && b.isDigit && test a b then [(d2val a b, rest)] else []
  | _ => []

/-- Match a one-digit alternative (regex pieces like `[1-9]`, `\d`). -/
def match1 (test : Char → Bool) (cs : PyStr) : List (Nat × PyStr) :=
  match cs with
  | a :: rest => if a.isDigit && test a then [(digitVal a, rest)] else []
  | [] => []

/-- `%f` value: fractional digits are right-padded with zeros to
microseconds. -/
def fracVal (ds : PyStr) : Nat :=
  (ds.foldl (fun a c => a * 10 + digitVal c) 0) * 10 ^ (6 - ds.length)

/-- All ways one directive can consume a prefix of `cs`, in the preference
order of CPython's compiled directive regexes:
`%Y` is `\d\d\d\d`; `%m` is `1[0-2]|0[1-9]|[1-9]`;
`%d` is `3[01]|[12]\d|0[1-9]|[1-9]`; `%H` is `2[0-3]|[0-1]\d|\d`;
`%I` is `1[0-2]|0[1-9]|[1-9]`; `%M` is `[0-5]\d|\d`;
`%S` is `6[0-1]|[0-5]\d|\d`; `%f` is `[0-9]{1,6}` (greedy);
`%p` is `am|pm` case-insensitively. -/
def fmtMatches : Fmt → PyStr → List (Nat × PyStr)
  | .Y, cs =>
    match cs with
    | a :: b :: c :: d :: rest =>
      if a.isDigit && b.isDigit && c.isDigit && d.isDigit then
        [((d2val a b) * 100 + d2val c d, rest)]
      else []
    | _ => []
  | .m, cs =>
      match2 (fun a b => a == '1' && decide (b ≤ '2')) cs ++
      match2 (fun a b => a == '0' && decide ('1' ≤ b)) cs ++
      match1 (fun a => decide ('1' ≤ a)) cs
  | .d, cs =>
      match2 (fun a b => a == '3' && decide (b ≤ '1')) cs ++
      match2 (fun a _ => a == '1' || a == '2') cs ++
      match2 (fun a b => a == '0' && decide ('1' ≤ b)) cs ++
      match1 (fun a => decide ('1' ≤ a)) cs
  | .H, cs =>
      match2 (fun a b => a == '2' && decide (b ≤ '3')) cs ++
      match2 (fun a _ => decide (a ≤ '1')) cs ++
      match1 (fun _ => true) cs
  | .I, cs =>
      match2 (fun a b => a == '1' && decide (b ≤ '2')) cs ++
      match2 (fun a b => a == '0' && decide ('1' ≤ b)) cs ++
      match1 (fun a => decide ('1' ≤ a)) cs
  | .M, cs =>
      match2 (fun a _ => decide (a ≤ '5')) cs ++
      match1 (fun _ => true) cs
  | .S, cs =>
      match2 (fun a b => a == '6' && decide (b ≤ '1')) cs ++
      match2 (fun a _ => decide (a ≤ '5')) cs ++
      match1 (fun _ => true) cs
  | .f, cs =>
      let run := cs.takeWhile Char.isDigit
      (List.range 6).filterMap (fun j =>
        let k := 6 - j
        if k ≤ run.length then some (fracVal (run.take k), cs.drop k) else none)
  | .p, cs =>
      match cs with
      | a :: b :: rest =>
        (if a.toLower == 'a' && b.toLower == 'm' then [(0, rest)] else []) ++
        (if a.toLower == 'p' && b.toLower == 'm' then [(1, rest)] else [])
      | _ => []
  | .lit c, cs =>
      match cs with
      | x :: rest => if x == c then [(0, rest)] else []
      | [] => []
  | .ws, cs =>
      let r := (cs.takeWhile isPySpace).length
      (List.range r).map (fun j => (0, cs.drop (r - j)))

/-- Record the value a directive matched. -/
def setFmt (f : Fmt) (v : Nat) (tm : TMF) : TMF :=
  match f with
  | .Y => { tm with y := v }
  | .m => { tm with mo := v }
  | .d => { tm with dy := v }
  | .H => { tm with h24 := some v }
  | .I => { tm with h12 := some v }
  | .M => { tm with mi := v }
  | .S => { tm with se := v }
  | .f => { tm with frac := v }
  | .p => { tm with pm := some (v = 1) }
  | .lit _ => tm
  | .ws => tm

/-- First match of a whole format, with regex-style backtracking: a later
alternative of a directive is tried only when the remainder of the format
cannot match.  Mirrors `re.match` on the compiled format regex. -/
def parseFmts : List Fmt → TMF → PyStr → Option (TMF × PyStr)
  | [], tm, cs => some (tm, cs)
  | f :: fs, tm, cs =>
      (fmtMatches f cs).findSome? (fun vr => parseFmts fs (setFmt f vr.1 tm) vr.2)

/-- Gregorian leap year rule (as in Python's `datetime`). -/
def isLeapYear (y : Nat) : Bool :=
  y % 4 = 0 && (y % 100 ≠ 0 || y % 400 = 0)

/-- Day count of a month (as validated by Python's `datetime`). -/
def daysInMonth (y m : Nat) : Nat :=
  if m = 2 then (if isLeapYear y then 29 else 28)
  else if m = 4 || m = 6 || m = 9 || m = 11 then 30
  else 31

/-- Hour-of-day after `%I`/`%p` resolution (CPython `_strptime`). -/
def resolvedHour (tm : TMF) : Nat :=
  match tm.h24 with
  | some h => h
  | none =>
    match tm.h12, tm.pm with
    | some h, some pmFlag =>
        if pmFlag then (if h = 12 then 12 else h + 12)
        else (if h = 12 then 0 else h)
    | some h, none => h
    | none, _ => 0

/-- The validation performed when strptime constructs the final
`date`/`datetime` value: real calendar day, year ≥ 1, and the
`datetime` constructor's rejection of seconds ≥ 60. -/
def validTM (tm : TMF) : Bool :=
  decide (1 ≤ tm.y) && decide (tm.y ≤ 9999) &&
  decide (1 ≤ tm.mo) && decide (tm.mo ≤ 12) &&
  decide (1 ≤ tm.dy) && decide (tm.dy ≤ daysInMonth tm.y tm.mo) &&
  decide (resolvedHour tm ≤ 23) && decide (tm.mi ≤ 59) && decide (tm.se ≤ 59)

/-- `datetime.strptime(cs, fmt)` succeeds: the first regex match consumes
all of `cs` and the collected fields form a valid datetime. -/
def strptimeOk (fmts : List Fmt) (cs : PyStr) : Bool :=
  match parseFmts fmts tmf0 cs with
  | some (tm, []) => validTM tm
  | _ => false

/-- `String._DATE_PATTERNS`, in source order. -/
def datePatterns : List (List Fmt) :=
  [[.Y, .lit '-', .m, .lit '-', .d],
   [.Y, .lit '/', .m, .lit '/', .d],
   [.Y, .lit '.', .m, .lit '.', .d],
   [.Y, .m, .d],
   [.Y, .lit '-', .d, .lit '-', .m],
   [.Y, .lit '/', .d, .lit '/', .m],
   [.Y, .lit '.', .d, .lit '.', .m],
   [.Y, .d, .m],
   [.m, .lit '-', .d, .lit '-', .Y],
   [.m, .lit '/', .d, .lit '/', .Y],
   [.m, .lit '.', .d, .lit '.', .Y],
   [.m, .d, .Y]]

/-- `String._TIME_PATTERNS`, in source order. -/
def timePatterns : List (List Fmt) :=
  [[.H, .lit ':', .M, .lit ':', .S],
   [.H, .lit ':', .M, .lit ':', .S, .lit '.', .f],
   [.H, .lit ':', .M],
   [.H, .M],
   [.H, .M, .S],
   [.I, .lit ':', .M, .lit ':', .S, .lit '.', .f, .ws, .p],
   [.I, .lit ':', .M, .lit ':', .S, .ws, .p],
   [.I, .lit ':', .M, .ws, .p],
   [.I, .lit ':', .M, .lit ':', .S, .p],
   [.I, .lit ':', .M, .p]]

/-- `String._DATETIME_PATTERNS`, in source order. -/
def datetimePatterns : List (List Fmt) :=
  [[.Y, .lit '-', .m, .lit '-', .d, .lit 'T', .H, .lit ':', .M, .lit ':', .S],
   [.Y, .lit '/', .m, .lit '/', .d, .lit 'T', .H, .lit ':', .M, .lit ':', .S],
   [.Y, .lit '.', .m, .lit '.', .d, .lit 'T', .H, .lit ':', .M, .lit ':', .S],
   [.Y, .m, .d, .H, .M, .S],
   [.Y, .lit '-', .d, .lit '-', .m, .lit 'T', .H, .lit ':', .M, .lit ':', .S],
   [.Y, .lit '/', .d, .lit '/', .m, .lit 'T', .H, .lit ':', .M, .lit ':', .S],
   [.Y, .lit '.', .d, .lit '.', .m, .lit 'T', .H, .lit ':', .M, .lit ':', .S],
   [.Y, .d, .m, .H, .M, .S],
   [.m, .lit '-', .d, .lit '-', .Y, .lit 'T', .H, .lit ':', .M, .lit ':', .S],
   [.m, .lit '/', .d, .lit '/', .Y, .lit 'T', .H, .lit ':', .M, .lit ':', .S],
   [.m, .lit '.', .d, .lit '.', .Y, .lit 'T', .H, .lit ':', .M, .lit ':', .S],
   [.m, .d, .Y, .H, .M, .S],
   [.Y, .lit '-', .m, .lit '-', .d, .lit 'T', .H, .lit ':', .M, .lit ':', .S, .lit '.', .f],
   [.Y, .lit '/', .m, .lit '/', .d, .lit 'T', .H, .lit ':', .M, .lit ':', .S, .lit '.', .f],
   [.Y, .lit '.', .m, .lit '.', .d, .lit 'T', .H, .lit ':', .M, .lit ':', .S, .lit '.', .f],
   [.Y, .m, .d, .H, .M, .S, .f],
   [.Y, .lit '-', .d, .lit '-', .m, .lit 'T', .H, .lit ':', .M, .lit ':', .S, .lit '.', .f],
   [.Y, .lit '/', .d, .lit '/', .m, .lit 'T', .H, .lit ':', .M, .lit ':', .S, .lit '.', .f],
   [.Y, .lit '.', .d, .lit '.', .m, .lit 'T', .H, .lit ':', .M, .lit ':', .S, .lit '.', .f],
   [.Y, .d, .m, .H, .M, .S, .f],
   [.m, .lit '-', .d, .lit '-', .Y, .lit 'T', .H, .lit ':', .M, .lit ':', .S, .lit '.', .f],
   [.m, .lit '/', .d, .lit '/', .Y, .lit 'T', .H, .lit ':', .M, .lit ':', .S, .lit '.', .f],
   [.m, .lit '.', .d, .lit '.', .Y, .lit 'T', .H, .lit ':', .M, .lit ':', .S, .lit '.', .f],
   [.m, .d, .Y, .H, .M, .S, .f]]

/-! ## Definitions: type_helper.py — the `String` class predicates

The Python class is named `String`; that name collides with Lean's core
string type, so the namespace here is `PyString`.  The embedded input
domain is Python `str` (the claims under verification apply the predicates
to strings), so the `isinstance` branches for already-typed inputs and the
`value is None` branches have no counterpart. -/

namespace PyString

/-- `String.is_bool_like` (string input). -/
def is_bool_like (value : PyStr) (trim : Bool) : Bool :=
  let tmp := if trim then pyStrip (pyLower value) else pyLower value
  tmp = chars "true" || tmp = chars "false"

/-- `String.is_none_like` (string input). -/
def is_none_like (value : PyStr) (trim : Bool) : Bool :=
  let tmp := if trim then pyLower (pyStrip value) else pyLower value
  tmp = chars "none" || tmp = chars "null"

/-- `String.is_empty_like` (string input). -/
def is_empty_like (value : PyStr) (trim : Bool) : Bool :=
  if trim then decide (pyStrip value = []) else value.isEmpty

/-- `String.is_float_like` (string input). -/
def is_float_like (value : PyStr) (trim : Bool) : Bool :=
  matchFloatRegex (if trim then pyStrip value else value)

/-- `String.is_int_like` (string input). -/
def is_int_like (value : PyStr) (trim : Bool) : Bool :=
  matchIntegerRegex (if trim then pyStrip value else value)

/-- `String._is_date_like`: strptime over `_DATE_PATTERNS`. -/
def is_date_like_aux (value : PyStr) : Bool :=
  datePatterns.any (fun p => strptimeOk p value)

/-- `String._is_time_like`: strptime over `_TIME_PATTERNS`. -/
def is_time_like_aux (value : PyStr) : Bool :=
  timePatterns.any (fun p => strptimeOk p value)

/-- `String._is_datetime_like`: strptime over `_DATETIME_PATTERNS`. -/
def is_datetime_like_aux (value : PyStr) : Bool :=
  datetimePatterns.any (fun p => strptimeOk p value)

/-- `String.is_date_like` (string input; `if not value` rejects `""`). -/
def is_date_like (value : PyStr) (trim : Bool) : Bool :=
  if value = [] then false
  else
    let tmp := if trim then pyStrip value else value
    (matchToks dateYmdToks tmp && is_date_like_aux tmp) ||
    (matchToks dateMdyToks tmp && is_date_like_aux tmp)

/-- `String.is_datetime_like` (string input). -/
def is_datetime_like (value : PyStr) (trim : Bool) : Bool :=
  if value = [] then false
  else
    let tmp := if trim then pyStrip value else value
    (matchAlts datetimeYmdAlts tmp && is_datetime_like_aux tmp) ||
    (matchAlts datetimeMdyAlts tmp && is_datetime_like_aux tmp)

/-- `String.is_time_like` (string input). -/
def is_time_like (value : PyStr) (trim : Bool) : Bool :=
  if value = [] then false
  else
    let tmp := if trim then pyStrip value else value
    (matchAlts time24Alts tmp && is_time_like_aux tmp) ||
    (matchAlts time12Alts tmp && is_time_like_aux tmp) ||
    (matchAlts timeCompactAlts tmp && is_time_like_aux tmp)

/-- `String.infer_type` (string input): the if-chain of predicate tests,
in source order. -/
def infer_type (value : PyStr) (trim : Bool) : DataType :=
  if is_none_like value trim then .NONE
  else if is_bool_like value trim then .BOOLEAN
  else if is_datetime_like value trim then .DATETIME
  else if is_time_like value trim then .TIME
  else if is_date_like value trim then .DATE
  else if is_int_like value trim then .INTEGER
  else if is_float_like value trim then .FLOAT
  else if is_empty_like value trim then .EMPTY
  else .STRING

end PyString

/-! ## Definitions: type_helper.py — Python float() and to_float -/

/-- Result of a successful CPython `float()` call.  The finite case keeps
the exact rational value of the literal (IEEE rounding is not modelled;
only acceptance/raising matters to the claims). -/
inductive PyFloatVal where
  | finite (q : ℚ)
  | infin (neg : Bool)
  | nanv
deriving DecidableEq

/-- Value of a digit string. -/
def digitsToNat (ds : PyStr) : Nat :=
  ds.foldl (fun a c => a * 10 + digitVal c) 0

/-- CPython `float(s)` on an ASCII string without underscore separators:
optional surrounding whitespace, optional sign, then `inf`/`infinity`/
`nan` (case-insensitively) or a numeric literal
`digits [. digits] [exp] | . digits [exp]`.  Returns `none` when `float`
raises `ValueError`. -/
def pyFloatParse (cs : PyStr) : Option PyFloatVal :=
  let t0 := pyStrip cs
  let neg := match t0 with
    | '-' :: _ => true
    | _ => false
  let t := match t0 with
    | '-' :: r => r
    | '+' :: r => r
    | r => r
  let tl := pyLower t
  if tl = chars "inf" || tl = chars "infinity" then some (.infin neg)
  else if tl = chars "nan" then some .nanv
  else
    let ip := t.takeWhile Char.isDigit
    let r1 := t.dropWhile Char.isDigit
    let hasDot := match r1 with
      | '.' :: _ => true
      | _ => false
    let fp := match r1 with
      | '.' :: r => r.takeWhile Char.isDigit
      | _ => []
    let r2 := match r1 with
      | '.' :: r => r.dropWhile Char.isDigit
      | r => r
    if ip = [] && fp = [] then none
    else
      let mant : ℚ := ((digitsToNat ip : ℚ) + (digitsToNat fp : ℚ) / ((10 : ℚ) ^ fp.length)) *
        (if neg then -1 else 1)
      match r2 with
      | [] => some (.finite mant)
      | e :: r3 =>
        if e = 'e' || e = 'E' then
          let eneg := match r3 with
            | '-' :: _ => true
            | _ => false
          let ed := match r3 with
            | '-' :: r => r
            | '+' :: r => r
            | r => r
          if ed ≠ [] && ed.all Char.isDigit then
            let ev : ℤ := if eneg then -(digitsToNat ed : ℤ) else (digitsToNat ed : ℤ)
            some (.finite (mant * (10 : ℚ) ^ ev))
          else none
        else none

/-- `String.to_float` (string input): `float(value)` is applied when the
float regex accepts the (optionally trimmed) value; a `float()` failure
propagates as a raised `ValueError`, otherwise the default is returned. -/
def to_float (value : PyStr) (dflt : Option PyFloatVal) (trim : Bool) :
    Except String (Option PyFloatVal) :=
  if PyString.is_float_like value trim then
    match pyFloatParse value with
    | some x => .ok (some x)
    | none => .error "ValueError: could not convert string to float"
  else .ok dflt

/-! ## Definitions: type_helper.py — profile_values -/

/-- The per-variant counter dictionary of `profile_values` (keys
`BOOLEAN, DATE, TIME, DATETIME, INTEGER, FLOAT, STRING, EMPTY, NONE`). -/
structure TypeCounts where
  nBool : Nat
  nDate : Nat
  nTime : Nat
  nDatetime : Nat
  nInt : Nat
  nFloat : Nat
  nStr : Nat
  nEmpty : Nat
  nNone : Nat
deriving DecidableEq, Repr

/-- All-zero counters. -/
def zeroCounts : TypeCounts := ⟨0, 0, 0, 0, 0, 0, 0, 0, 0⟩

/-- `types[inferred_type.name] += 1`.  `String.infer_type` never returns
`MIXED`, so that case leaves the counters unchanged (in Python it would be
an unreachable `KeyError`). -/
def bumpCount (t : DataType) (c : TypeCounts) : TypeCounts :=
  match t with
  | .BOOLEAN => { c with nBool := c.nBool + 1 }
  | .DATE => { c with nDate := c.nDate + 1 }
  | .TIME => { c with nTime := c.nTime + 1 }
  | .DATETIME => { c with nDatetime := c.nDatetime + 1 }
  | .INTEGER => { c with nInt := c.nInt + 1 }
  | .FLOAT => { c with nFloat := c.nFloat + 1 }
  | .STRING => { c with nStr := c.nStr + 1 }
  | .EMPTY => { c with nEmpty := c.nEmpty + 1 }
  | .NONE => { c with nNone := c.nNone + 1 }
  | .MIXED => c

/-- `_determine_type_from_counts` of type_helper.py. -/
def determine_type_from_counts (c : TypeCounts) (count : Nat) (allowSpecial : Bool) :
    Option DataType :=
  if c.nEmpty = count then some .EMPTY
  else if c.nNone = count then some .NONE
  else if c.nNone + c.nEmpty = count then some .NONE
  else if c.nBool + c.nEmpty = count then some .BOOLEAN
  else if c.nStr + c.nEmpty = count then some .STRING
  else if !allowSpecial then none
  else if c.nDate + c.nEmpty = count then some .DATE
  else if c.nDatetime + c.nEmpty = count then some .DATETIME
  else if c.nTime + c.nEmpty = count then some .TIME
  else if c.nInt + c.nEmpty = count then some .INTEGER
  else if c.nFloat + c.nInt + c.nEmpty = count then some .FLOAT
  else none

/-- `_INCREMENTAL_TYPECHECK_THRESHOLD`. -/
def INCREMENTAL_TYPECHECK_THRESHOLD : Nat := 10000

/-- The counting loop of `profile_values`: classify each value, bump its
counter, and at a checkpoint (when incremental checking is enabled) return
early on a mixed numeric/string population or on a safe determination. -/
def profileLoop (trim useInc : Bool) (cps : List Nat) :
    List PyStr → TypeCounts → Nat → TypeCounts × Option DataType
  | [], tys, _ => (tys, none)
  | v :: rest, tys, cnt =>
    let tys := bumpCount (PyString.infer_type v trim) tys
    let cnt := cnt + 1
    if useInc && cps.contains cnt then
      let numericTemporal := tys.nInt + tys.nFloat + tys.nDate + tys.nDatetime + tys.nTime
      if 0 < numericTemporal ∧ 0 < tys.nStr then (tys, some .MIXED)
      else
        match determine_type_from_counts tys cnt false with
        | some r => (tys, some r)
        | none => profileLoop trim useInc cps rest tys cnt
    else profileLoop trim useInc cps rest tys cnt

/-- `profile_values` of type_helper.py (collection input, already a list).
The checkpoint indices `int(total_count * 0.25)` etc. are exact in double
precision for any realizable list length, so they are modelled by Nat
division. -/
def profile_values (values : List PyStr) (trim useIncremental : Bool) : DataType :=
  if values = [] then .EMPTY
  else
    let totalCount := values.length
    let useInc := useIncremental && decide (totalCount > INCREMENTAL_TYPECHECK_THRESHOLD)
    let checkPoints :=
      if useInc then [totalCount / 4, totalCount / 2, totalCount * 3 / 4] else []
    match profileLoop trim useInc checkPoints values zeroCounts 0 with
    | (_, some result) => result
    | (tys, none) =>
      match determine_type_from_counts tys totalCount true with
      | some r => r
      | none =>
        if (tys.nDate + tys.nTime + tys.nDatetime + tys.nInt + tys.nEmpty = totalCount) ∧
           (0 < tys.nDate ∨ 0 < tys.nTime ∨ 0 < tys.nDatetime ∨ 0 < tys.nEmpty) then
          if values.all (fun v => PyString.is_empty_like v trim || PyString.is_int_like v trim)
          then .INTEGER
          else .MIXED
        else .MIXED

/-! ## Definitions: dsv_helper.py -/

/-- A parsed row of tokens. -/
abbrev Row := List PyStr

/-- A chunk of parsed rows, as yielded by `parse_stream`. -/
abbrev Chunk := List Row

/-- `line.strip() if strip else line.rstrip("\n")`: file lines are modelled
without their terminators, so the `rstrip` branch is the identity. -/
def stripLine (strip : Bool) (l : PyStr) : PyStr :=
  if strip then pyStrip l else l

namespace DsvHelper

/-- `DsvHelper.parse` applied to one line whose delimiter was already
validated (as inside `parse_stream`): tokenize, then strip bookends from
each token when a non-empty bookend is given (`if bookend:`). -/
def parseLine (content delim : PyStr) (strip : Bool) (bookend : Option PyStr)
    (bookendStrip : Bool) : Row :=
  let tokens := match StringTokenizer.parse content delim strip with
    | .ok ts => ts
    | .error _ => []
  match bookend with
  | some b =>
    if b = [] then tokens
    else tokens.map (fun t => StringTokenizer.remove_bookends t b bookendStrip)
  | none => tokens

/-- The footer-skipping loop of `parse_stream` (`skip_footer_rows > 0`):
a lag `deque` of size `skip_footer_rows` delays every line, and a working
chunk is emitted at `chunk_size` lines; the residual chunk is yielded at
end of input. -/
def footerLoop (delim : PyStr) (strip : Bool) (bookend : Option PyStr)
    (bookendStrip : Bool) (F C : Nat) :
    List PyStr → List PyStr → List PyStr → List Chunk
  | [], _, chunk =>
    if chunk = [] then []
    else [chunk.map (fun l => parseLine l delim strip bookend bookendStrip)]
  | l :: rest, buffer, chunk =>
    let buffer2 := buffer ++ [stripLine strip l]
    if F < buffer2.length then
      let chunk2 := chunk ++ [buffer2.headD []]
      let buffer3 := buffer2.tail
      if chunk2.length = C then
        (chunk2.map (fun l2 => parseLine l2 delim strip bookend bookendStrip)) ::
          footerLoop delim strip bookend bookendStrip F C rest buffer3 []
      else footerLoop delim strip bookend bookendStrip F C rest buffer3 chunk2
    else footerLoop delim strip bookend bookendStrip F C rest buffer2 chunk

/-- The plain chunking loop of `parse_stream` (`skip_footer_rows == 0`). -/
def plainLoop (delim : PyStr) (strip : Bool) (bookend : Option PyStr)
    (bookendStrip : Bool) (C : Nat) :
    List PyStr → List PyStr → List Chunk
  | [], chunk =>
    if chunk = [] then []
    else [chunk.map (fun l => parseLine l delim strip bookend bookendStrip)]
  | l :: rest, chunk =>
    let chunk2 := chunk ++ [stripLine strip l]
    if chunk2.length = C then
      (chunk2.map (fun l2 => parseLine l2 delim strip bookend bookendStrip)) ::
        plainLoop delim strip bookend bookendStrip C rest []
    else plainLoop delim strip bookend bookendStrip C rest chunk2

/-- `DsvHelper.parse_stream` over a file modelled as its list of lines
(terminators removed).  Parameter validation precedes any reading; header
skipping returns early when the file has fewer than `skip_header_rows`
lines.  `skip_header_rows` and `skip_footer_rows` are `Nat`, so the
negativity check cannot fire. -/
def parse_stream (lines : List PyStr) (delim : PyStr) (strip : Bool)
    (bookend : Option PyStr) (bookendStrip : Bool) (H F C : Nat) :
    Except String (List Chunk) :=
  if delim = [] then .error "Delimiter must not be empty or None."
  else if C < 100 then .error "chunk_size must be at least 100."
  else if lines.length < H then .ok []
  else
    .ok (if 0 < F then footerLoop delim strip bookend bookendStrip F C (lines.drop H) [] []
         else plainLoop delim strip bookend bookendStrip C (lines.drop H) [])

end DsvHelper

/-! ## Definitions: tabular_data_model.py (in-memory model) -/

/-- Scan underlying `re.sub(r"\s+", " ", name)`: `prevSpace` records
whether the previous character belonged to a whitespace run already
replaced by one space. -/
def squeezeWsAux (prevSpace : Bool) : PyStr → PyStr
  | [] => []
  | c :: rest =>
    if isPySpace c then
      if prevSpace then squeezeWsAux true rest
      else ' ' :: squeezeWsAux true rest
    else c :: squeezeWsAux false rest

/-- `re.sub(r"\s+", " ", name)`: collapse each whitespace run to one
space. -/
def squeezeWs (cs : PyStr) : PyStr := squeezeWsAux false cs

/-- Column-name normalization: collapse whitespace runs, then strip. -/
def normName (n : PyStr) : PyStr := pyStrip (squeezeWs n)

/-- The positional placeholder `column_<i>`. -/
def colName (i : Nat) : PyStr := chars "column_" ++ (Nat.repr i).data

/-- `max(len(row) for row in rows)` (callers guard non-emptiness). -/
def maxRowLen (rows : List Row) : Nat :=
  (rows.map List.length).foldl max 0

/-- `TabularDataModel._normalize_data_model`: right-pad every row to the
maximum width, then drop all-empty rows when requested. -/
def normalize_data_model (rows : List Row) (skip_empty_rows : Bool) : List Row :=
  if rows = [] then []
  else
    let maxCC := maxRowLen rows
    let normalized := rows.map (fun row =>
      if row.length < maxCC then row ++ List.replicate (maxCC - row.length) [] else row)
    if skip_empty_rows then
      normalized.filter (fun row => !(row.all (fun cell => decide (pyStrip cell = []))))
    else normalized

/-- One cell of the header-merging loop: `f"{merged}_{name}"` when the
accumulated name is non-empty, else the new name (even an empty one). -/
def mergeCell (a name : PyStr) : PyStr :=
  if a = [] then name else a ++ '_' :: name

/-- One header row of the merging loop: extend the accumulator with empty
strings up to the row's length, then combine position-wise. -/
def mergeStep (acc row : List PyStr) : List PyStr :=
  let acc2 := acc ++ List.replicate (row.length - acc.length) ([] : PyStr)
  (List.zipWith mergeCell (acc2.take row.length) row) ++ acc2.drop row.length

/-- The enumerated name-to-index association built by
`{name: i for i, name in enumerate(column_names)}`, kept as the insertion
sequence. -/
def mkIndexPairs : List PyStr → Nat → List (PyStr × Nat)
  | [], _ => []
  | n :: rest, i => (n, i) :: mkIndexPairs rest (i + 1)

/-- Python `dict` lookup over the insertion sequence: a later assignment
to the same key overwrites an earlier one, so the last binding wins. -/
def dictGet (pairs : List (PyStr × Nat)) (n : PyStr) : Option Nat :=
  (pairs.reverse.find? (fun p => decide (p.1 = n))).map (fun p => p.2)

/-- Python `dict` lookup over an insertion sequence of string values: as
in `dictGet`, the last binding for a repeated key wins. -/
def dictGetV (pairs : List (PyStr × PyStr)) (n : PyStr) : Option PyStr :=
  (pairs.reverse.find? (fun p => decide (p.1 = n))).map (fun p => p.2)

/-- The column-name normalization pipeline shared verbatim by
`TabularDataModel.__init__` (steps: take the first header row, collapse
whitespace and strip, generate positional names when empty, pad to the
column count, replace empty names) and by
`StreamingTabularDataModel.process_headers`. -/
def buildColumnNames (headerData : List Row) (columns : Nat) : List PyStr :=
  let names0 := match headerData with
    | r :: _ => r
    | [] => []
  let names1 := names0.map normName
  let names2 := if names1 = [] then (List.range columns).map colName else names1
  let names3 := names2 ++
    (List.range (columns - names2.length)).map (fun k => colName (names2.length + k))
  names3.enum.map (fun p => if p.2 = [] then colName p.1 else p.2)

/-- The state built by `TabularDataModel.__init__`. -/
structure TDM where
  headerData : List Row
  data : List Row
  headerColumns : Nat
  columns : Nat
  rows : Nat
  columnNames : List PyStr
  columnIndexPairs : List (PyStr × Nat)
deriving DecidableEq, Repr

/-- `TabularDataModel.__init__` of src/jpy_tools/tabular_data_model.py.
(`data is None` has no counterpart; `header_rows < 0` cannot fire over
`Nat`.) -/
def tdmInit (data : List Row) (header_rows multi_row_headers : Nat)
    (skip_empty_rows : Bool) : Except String TDM :=
  if data.length = 0 then .error "Data is required"
  else if 0 < header_rows ∧ header_rows < multi_row_headers then
    .error "Column names span must be less than or equal to header rows"
  else if 0 < header_rows ∧ multi_row_headers = 0 then
    .error "Column names span must be greater than 0 if header rows are greater than 0"
  else
    let headerData0 := if 0 < header_rows then data.take header_rows else []
    let tdata :=
      if 0 < header_rows then normalize_data_model (data.drop header_rows) skip_empty_rows
      else normalize_data_model data skip_empty_rows
    let headerColumns := match headerData0 with
      | r :: _ => r.length
      | [] => 0
    let columns := match tdata with
      | r :: _ => r.length
      | [] => 0
    let headerData := if 1 < header_rows ∧ 1 < multi_row_headers then
        [(headerData0.take multi_row_headers).foldl mergeStep []]
      else headerData0
    let names4 := buildColumnNames headerData columns
    .ok ⟨headerData, tdata, headerColumns, columns, tdata.length, names4, mkIndexPairs names4 0⟩

/-- `TabularDataModel.column_index`. -/
def column_index (m : TDM) (name : PyStr) : Except String Nat :=
  match dictGet m.columnIndexPairs name with
  | some i => .ok i
  | none => .error "Column name not found"

/-- The dictionary built by `TabularDataModel.row`, kept as its insertion
sequence: one entry per `i in range(self._columns)`, keyed by
`column_names[i]` with value `data[index][i]`.  (In a constructed model
the names list is padded to at least `columns` entries and every
normalized data row has exactly `columns` cells, so the `getD` defaults
are never taken for an in-range `index`.) -/
def rowDict (m : TDM) (index : Nat) : List (PyStr × PyStr) :=
  (List.range m.columns).map (fun i =>
    (m.columnNames.getD i [], (m.data.getD index []).getD i []))

/-! ## Definitions: streaming_tabular_data_model.py -/

/-- The state of a `StreamingTabularDataModel`: the remaining upstream
chunk iterator is carried explicitly as `stream`. -/
structure SModel where
  headerRows : Nat
  multiRowHeaders : Nat
  skipEmptyRows : Bool
  chunkSize : Nat
  headerData : List Row
  columnNames : List PyStr
  columnIndexPairs : List (PyStr × Nat)
  columnTypes : List (PyStr × DataType)
  buffer : List Row
  stream : List Chunk
  totalRowsProcessed : Nat
  maxColumns : Nat
  rowCount : Nat
deriving DecidableEq, Repr

/-- The header-collection loop of `_initialize_from_stream`: pull chunks
until `header_rows` rows are collected; the rest of the current chunk goes
into the buffer unchanged, and later chunks stay on the stream.  Returns
(header rows, buffer, remaining stream). -/
def collectHeaders : Nat → List Chunk → (List Row × List Row × List Chunk)
  | _, [] => ([], [], [])
  | hr, c :: cs =>
    if hr ≤ c.length then (c.take hr, c.drop hr, cs)
    else
      let r := collectHeaders (hr - c.length) cs
      (c ++ r.1, r.2.1, r.2.2)

/-- `StreamingTabularDataModel.process_headers`. -/
def process_headers (header_data : List Row) (header_rows multi_row_headers : Nat) :
    List Row × List PyStr :=
  let processed := if 1 < header_rows ∧ 1 < multi_row_headers then
      [(header_data.take multi_row_headers).foldl mergeStep []]
    else header_data
  let columnCount := if header_data = [] then 0 else maxRowLen header_data
  (processed, buildColumnNames processed columnCount)

/-- `StreamingTabularDataModel.__init__` followed by
`_initialize_from_stream`.  (`stream is None` has no counterpart;
`header_rows < 0` cannot fire over `Nat`.) -/
def sInit (stream : List Chunk) (header_rows multi_row_headers : Nat)
    (skip_empty_rows : Bool) (chunk_size : Nat) : Except String SModel :=
  if 0 < header_rows ∧ header_rows < multi_row_headers then
    .error "Column names span must be less than or equal to header rows"
  else if 0 < header_rows ∧ multi_row_headers = 0 then
    .error "Column names span must be greater than 0 if header rows are greater than 0"
  else if chunk_size < 100 then .error "chunk_size must be at least 100"
  else
    let r := collectHeaders header_rows stream
    if 0 < header_rows then
      let ph := process_headers r.1 header_rows multi_row_headers
      .ok ⟨header_rows, multi_row_headers, skip_empty_rows, chunk_size, ph.1, ph.2,
        mkIndexPairs ph.2 0, [], r.2.1, r.2.2, 0, 0, 0⟩
    else
      let maxCols := match r.2.1 with
        | r0 :: _ => r0.length
        | [] => 0
      let names := if r.2.1 = [] then [] else (List.range maxCols).map colName
      .ok ⟨header_rows, multi_row_headers, skip_empty_rows, chunk_size, [], names,
        mkIndexPairs names 0, [], r.2.1, r.2.2, 0,
        (if r.2.1 = [] then 0 else maxCols), 0⟩

/-- One stream-phase row of `__iter__`: skip all-empty rows when
requested, right-pad short rows, grow the column list (and the index map)
for long rows, then emit. -/
def rowStep (skipEmpty : Bool) (st : List Row × List PyStr × List (PyStr × Nat))
    (row : Row) : List Row × List PyStr × List (PyStr × Nat) :=
  let yielded := st.1
  let names := st.2.1
  let pairs := st.2.2
  if skipEmpty && row.all (fun cell => decide (pyStrip cell = [])) then
    (yielded, names, pairs)
  else if row.length < names.length then
    (yielded ++ [row ++ List.replicate (names.length - row.length) ([] : PyStr)],
     names, pairs)
  else if names.length < row.length then
    let fresh := (List.range (row.length - names.length)).map (fun k => names.length + k)
    (yielded ++ [row], names ++ fresh.map colName,
     pairs ++ fresh.map (fun k => (colName k, k)))
  else (yielded ++ [row], names, pairs)

/-- The stream phase of `__iter__`: chunks then rows, in order. -/
def streamPhase (skipEmpty : Bool) (chunks : List Chunk) (names : List PyStr)
    (pairs : List (PyStr × Nat)) : List Row × List PyStr × List (PyStr × Nat) :=
  chunks.foldl (fun st chunk => chunk.foldl (rowStep skipEmpty) st) ([], names, pairs)

/-- A complete run of `StreamingTabularDataModel.__iter__`: buffered rows
are yielded verbatim first and the buffer is cleared, then the stream
phase runs; `_row_count` grows by the number of yielded rows. -/
def sIter (m : SModel) : List Row × SModel :=
  let r := streamPhase m.skipEmptyRows m.stream m.columnNames m.columnIndexPairs
  let yielded := m.buffer ++ r.1
  (yielded,
   { m with buffer := [], stream := [], columnNames := r.2.1,
            columnIndexPairs := r.2.2, rowCount := m.rowCount + yielded.length })

/-- `StreamingTabularDataModel.clear_buffer`. -/
def clear_buffer (m : SModel) : SModel := { m with buffer := [] }

/-- `StreamingTabularDataModel.column_index`: the same dict lookup as the
in-memory model's, over the streaming model's map. -/
def s_column_index (m : SModel) (name : PyStr) : Except String Nat :=
  match dictGet m.columnIndexPairs name with
  | some i => .ok i
  | none => .error "Column name not found"

/-- One row of `_fill_buffer`'s inner loop: identical filtering, padding
and column growth to the stream phase of `__iter__` (the accumulated list
here being the buffer), except that once the buffer has reached
`chunk_size` the `break` has fired and the rest of the chunk is ignored. -/
def fillRow (skipEmpty : Bool) (chunkSize : Nat)
    (st : List Row × List PyStr × List (PyStr × Nat)) (row : Row) :
    List Row × List PyStr × List (PyStr × Nat) :=
  if chunkSize ≤ st.1.length then st
  else rowStep skipEmpty st row

/-- The chunk loop of `_fill_buffer`: pull chunks while the buffer is
below `chunk_size`; a chunk cut short by the inner `break` has already
been consumed by `next`, so its unread rows are lost, while unread chunks
stay on the stream.  Returns ((buffer, names, pairs), remaining stream). -/
def fillLoop (skipEmpty : Bool) (chunkSize : Nat) :
    List Chunk → List Row × List PyStr × List (PyStr × Nat) →
    (List Row × List PyStr × List (PyStr × Nat)) × List Chunk
  | [], st => (st, [])
  | c :: cs, st =>
    if chunkSize ≤ st.1.length then (st, c :: cs)
    else fillLoop skipEmpty chunkSize cs (c.foldl (fillRow skipEmpty chunkSize) st)

/-- `StreamingTabularDataModel._fill_buffer`. -/
def fill_buffer (m : SModel) : SModel :=
  let r := fillLoop m.skipEmptyRows m.chunkSize m.stream
    (m.buffer, m.columnNames, m.columnIndexPairs)
  { m with buffer := r.1.1, columnNames := r.1.2.1, columnIndexPairs := r.1.2.2,
           stream := r.2 }

/-- `StreamingTabularDataModel.cell_value`: the column index is resolved
through the name-to-index map before the buffer is filled; the range
check raises `ValueError`, and reading past the end of a short (buffered,
unnormalized) row raises `IndexError`.  The state after the internal
`_fill_buffer` is returned alongside the cell. -/
def cell_value (m : SModel) (name : PyStr) (row_index : Nat) :
    Except String (PyStr × SModel) :=
  match dictGet m.columnIndexPairs name with
  | none => .error "Column name not found"
  | some col_idx =>
    let m2 := fill_buffer m
    if m2.buffer.length ≤ row_index then .error "Row index out of range"
    else match (m2.buffer.getD row_index [])[col_idx]? with
      | some v => .ok (v, m2)
      | none => .error "IndexError"

/-! ## Definitions: spec-side functions used to state the claims -/

/-- First-match selection over an ordered list of predicates, as the spec
words the `infer_type` precedence contract. -/
def firstMatch : List ((PyStr → Bool) × DataType) → DataType → PyStr → DataType
  | [], dflt, _ => dflt
  | pt :: rest, dflt, v => if pt.1 v then pt.2 else firstMatch rest dflt v

/-- The spec's precedence order
`NONE, BOOLEAN, DATETIME, TIME, DATE, INTEGER, FLOAT, EMPTY` (with
`STRING` as the final default). -/
def precedenceList (trim : Bool) : List ((PyStr → Bool) × DataType) :=
  [(fun v => PyString.is_none_like v trim, .NONE),
   (fun v => PyString.is_bool_like v trim, .BOOLEAN),
   (fun v => PyString.is_datetime_like v trim, .DATETIME),
   (fun v => PyString.is_time_like v trim, .TIME),
   (fun v => PyString.is_date_like v trim, .DATE),
   (fun v => PyString.is_int_like v trim, .INTEGER),
   (fun v => PyString.is_float_like v trim, .FLOAT),
   (fun v => PyString.is_empty_like v trim, .EMPTY)]

/-- The spec's merged column name: underscore-join of the non-empty header
cells at one position (claim C5's wording). -/
def specJoinNonEmpty (cells : List PyStr) : PyStr :=
  List.intercalate ['_'] (cells.filter (fun c => !c.isEmpty))

/-- Left fold of the header-merge combination starting from a non-empty
accumulated name: each further cell is appended after an underscore. -/
def joinFrom (a : PyStr) (cells : List PyStr) : PyStr :=
  cells.foldl (fun x c => x ++ '_' :: c) a

/-- The two header rows of the spec's multi-row-header example S3. -/
def employeeHeaderRows : List Row :=
  [[chars "Employee", chars "Employee", chars "Location"],
   [chars "First", chars "Last", chars "City"]]

/-- Zero-based index of the last occurrence of `n`, if present. -/
def lastIdx? : List PyStr → PyStr → Option Nat
  | [], _ => none
  | x :: rest, n =>
    match lastIdx? rest n with
    | some j => some (j + 1)
    | none => if x = n then some 0 else none

/-- `n` consecutive bumps of one counter (the effect of classifying `n`
equal values in a row). -/
def bumpN (t : DataType) : Nat → TypeCounts → TypeCounts
  | 0, c => c
  | n + 1, c => bumpN t n (bumpCount t c)

/-- A failing input for claim C1: 2500 plain strings followed by 7501
integer-like strings — 10001 values, just over the incremental
threshold. -/
def bigCounterexample : List PyStr :=
  List.replicate 2500 (chars "a") ++ List.replicate 7501 (chars "1")

/-- A table input with a duplicated column name (claim C7). -/
def dupNameData : List Row := [[chars "x", chars "x"], [chars "1", chars "2"]]

/-- The model `tdmInit` builds from `dupNameData` (the default is never
used: construction succeeds). -/
def dupNameModel : TDM :=
  (tdmInit dupNameData 1 1 true).toOption.getD ⟨[], [], 0, 0, 0, [], []⟩

/-- The streaming analogue of `dupNameData`: one upstream chunk holding
the duplicate-name header row and one data row (the default is never
used: construction succeeds). -/
def dupNameSModel : SModel :=
  (sInit [dupNameData] 1 1 true 100).toOption.getD
    ⟨0, 0, false, 0, [], [], [], [], [], [], 0, 0, 0⟩

/-- A failing input for claim C3 (the stream of the repository's own
`test_streaming_model_skip_empty_rows` test): one upstream chunk holding
the header row, three data rows and two all-empty rows (a blank `",,,"`
line parses to four empty cells). -/
def emptyRowStream : List Chunk :=
  [[[chars "Name", chars "Age", chars "City"],
    [chars "John", chars "25", chars "New York"],
    [[], [], [], []],
    [chars "Jane", chars "30", chars "Los Angeles"],
    [[], [], [], []],
    [chars "Bob", chars "35", chars "Chicago"]]]

/-! ## Theorems: helper lemmas about the string primitives -/

theorem startsWithL_length_le {p l : PyStr} (h : startsWithL p l = true) :
    p.length ≤ l.length := by
  induction p generalizing l with
  | nil => exact Nat.zero_le _
  | cons x xs ih =>
    cases l with
    | nil => simp [startsWithL] at h
    | cons c cs =>
      simp only [startsWithL, Bool.and_eq_true] at h
      simpa using Nat.succ_le_succ (ih h.2)

theorem startsWithL_iff_append {p l : PyStr} :
    startsWithL p l = true ↔ ∃ t, l = p ++ t := by
  induction p generalizing l with
  | nil => simp [startsWithL]
  | cons x xs ih =>
    cases l with
    | nil =>
      simp only [startsWithL]
      constructor
      · intro h; cases h
      · rintro ⟨t, ht⟩; cases ht
    | cons c cs =>
      simp only [startsWithL, Bool.and_eq_true, decide_eq_true_eq, ih]
      constructor
      · rintro ⟨rfl, t, rfl⟩; exact ⟨t, rfl⟩
      · rintro ⟨t, ht⟩
        injection ht with h1 h2
        exact ⟨h1.symm, t, h2⟩

theorem findSub_some {cs d : PyStr} {i : Nat} (h : findSub cs d = some i) :
    startsWithL d (cs.drop i) = true ∧ i + d.length ≤ cs.length := by
  have hp := List.find?_some h
  have hmem := List.mem_of_find?_eq_some h
  have hlt : i < cs.length + 1 := List.mem_range.mp hmem
  refine ⟨hp, ?_⟩
  have hlen := startsWithL_length_le hp
  have hdrop : (cs.drop i).length = cs.length - i := List.length_drop i cs
  omega

theorem pySplit_length (cs d : PyStr) :
    (pySplit cs d).length = countOcc cs d + 1 := by
  rw [pySplit, countOcc]
  by_cases hd : d = []
  · simp [hd]
  · simp only [hd, dite_false]
    cases h : findSub cs d with
    | none => simp
    | some i =>
      simp only [List.length_cons]
      have h2 := findSub_some h
      have hdlen : 0 < d.length := List.length_pos.mpr hd
      have hlt : (cs.drop (i + d.length)).length < cs.length := by
        have : (cs.drop (i + d.length)).length = cs.length - (i + d.length) :=
          List.length_drop _ _
        omega
      rw [pySplit_length (cs.drop (i + d.length)) d]
termination_by cs.length
decreasing_by
  have h2 := findSub_some h
  have hdlen : 0 < d.length := List.length_pos.mpr hd
  have : (cs.drop (i + d.length)).length = cs.length - (i + d.length) :=
    List.length_drop _ _
  omega

theorem intercalate_cons_of_ne_nil {α : Type} (d x : List α) (ys : List (List α))
    (hys : ys ≠ []) :
    List.intercalate d (x :: ys) = x ++ d ++ List.intercalate d ys := by
  cases ys with
  | nil => exact absurd rfl hys
  | cons a as => simp [List.intercalate, List.intersperse]

theorem pySplit_ne_nil (cs d : PyStr) : pySplit cs d ≠ [] := by
  intro hsp
  have h := pySplit_length cs d
  rw [hsp] at h
  simp at h

theorem pySplit_intercalate (cs d : PyStr) (hd : d ≠ []) :
    List.intercalate d (pySplit cs d) = cs := by
  rw [pySplit]
  simp only [hd, dite_false]
  cases h : findSub cs d with
  | none => simp [List.intercalate]
  | some i =>
    have h2 := findSub_some h
    have hdlen : 0 < d.length := List.length_pos.mpr hd
    have hlt : (cs.drop (i + d.length)).length < cs.length := by
      have : (cs.drop (i + d.length)).length = cs.length - (i + d.length) :=
        List.length_drop _ _
      omega
    have ih := pySplit_intercalate (cs.drop (i + d.length)) d hd
    obtain ⟨t, ht⟩ := startsWithL_iff_append.mp h2.1
    have hjoin := intercalate_cons_of_ne_nil d (cs.take i)
      (pySplit (cs.drop (i + d.length)) d) (pySplit_ne_nil _ _)
    rw [hjoin, ih]
    have hdrop : cs.drop (i + d.length) = t := by
      have : cs.drop i = d ++ t := ht
      calc cs.drop (i + d.length) = (cs.drop i).drop d.length := by
            rw [List.drop_drop, Nat.add_comm]
        _ = (d ++ t).drop d.length := by rw [this]
        _ = t := by simp
    rw [hdrop]
    have : cs = cs.take i ++ cs.drop i := (List.take_append_drop i cs).symm
    rw [ht] at this
    conv_rhs => rw [this]
    simp [List.append_assoc]
termination_by cs.length
decreasing_by
  have h2 := findSub_some h
  have hdlen : 0 < d.length := List.length_pos.mpr hd
  have : (cs.drop (i + d.length)).length = cs.length - (i + d.length) :=
    List.length_drop _ _
  omega

/-! ## Theorems: claim C9 — remove_bookends round trip -/

/-- C9: for every bookend `x` with `len(x) ≥ 1` and every non-empty text
`s`, `remove_bookends(x + s + x, x, strip=False)` returns exactly the
interior `s`: the wrapped string starts and ends with `x` and its length
strictly exceeds `2·len(x) − 1`. -/
theorem remove_bookends_roundtrip (x s : PyStr) (hx : x ≠ []) (hs : s ≠ []) :
    StringTokenizer.remove_bookends (x ++ s ++ x) x false = s := by
  have hxlen : 0 < x.length := List.length_pos.mpr hx
  have hslen : 0 < s.length := List.length_pos.mpr hs
  have hstart : startsWithL x (x ++ s ++ x) = true :=
    startsWithL_iff_append.mpr ⟨s ++ x, by simp⟩
  have hend : endsWithL x (x ++ s ++ x) = true := by
    unfold endsWithL
    exact startsWithL_iff_append.mpr ⟨(x ++ s).reverse, by simp⟩
  have hdec : decide ((x ++ s ++ x).length > 2 * x.length - 1) = true := by
    rw [decide_eq_true_iff]
    simp only [List.length_append]
    omega
  show (if startsWithL x (x ++ s ++ x) && endsWithL x (x ++ s ++ x) &&
        decide ((x ++ s ++ x).length > 2 * x.length - 1) then
          if x.length = 0 then []
          else ((x ++ s ++ x).take ((x ++ s ++ x).length - x.length)).drop x.length
        else x ++ s ++ x) = s
  rw [hstart, hend, hdec]
  simp only [Bool.and_self, if_true]
  rw [if_neg (by omega : ¬ x.length = 0)]
  have hlen2 : (x ++ s ++ x).length - x.length = (x ++ s).length := by
    simp only [List.length_append]
    omega
  rw [hlen2]
  rw [List.take_left]
  rw [List.drop_left]

/-- Witness for C9 at the concrete input of the module docstring:
`remove_bookends("'hello'", "'")` with `strip=False` gives `hello`. -/
theorem remove_bookends_roundtrip_witness :
    StringTokenizer.remove_bookends (chars "'" ++ chars "hello" ++ chars "'")
      (chars "'") false = chars "hello" :=
  remove_bookends_roundtrip (chars "'") (chars "hello") (by decide) (by decide)

/-! ## Theorems: claim C8 — StringTokenizer.parse versus str.split -/

/-- C8 counterexample: on whitespace-only content with `strip=True`,
`parse` returns the empty token list, not the one (stripped) field that
`content.split(delimiter)` produces, so the claimed "one more token than
delimiter occurrences" fails at content `" "`, delimiter `","`. -/
theorem st_parse_whitespace_counterexample :
    StringTokenizer.parse (chars " ") (chars ",") true = .ok [] ∧
    (pySplit (chars " ") (chars ",")).map pyStrip = [[]] ∧
    countOcc (chars " ") (chars ",") + 1 = 1 ∧
    ([] : List PyStr) ≠ [[]] := by
  have hfind : findSub (chars " ") (chars ",") = none := by decide
  have hsp : pySplit (chars " ") (chars ",") = [chars " "] := by
    rw [pySplit]
    rw [dif_neg (by decide : ¬ chars "," = [])]
    split
    · rfl
    · rename_i i hi
      rw [hfind] at hi
      cases hi
  have hco : countOcc (chars " ") (chars ",") = 0 := by
    rw [countOcc]
    rw [dif_neg (by decide : ¬ chars "," = [])]
    split
    · rfl
    · rename_i i hi
      rw [hfind] at hi
      cases hi
  refine ⟨by decide, ?_, by rw [hco], by decide⟩
  rw [hsp]
  decide

/-- C8 (amended): for a non-empty delimiter, whenever `strip` is false or
the content is not whitespace-only, `parse` returns exactly the
delimiter-split substrings of the RAW content — the split happens first,
and only then is each token stripped when `strip` is true, with empty
tokens preserved; the split has one more token than there are delimiter
occurrences in the content, and joining it with the delimiter restores
the content.  (The initial `content.strip()` of the source is only an
emptiness test, covered by the whitespace-only counterexample.) -/
theorem st_parse_split_spec (content delim : PyStr) (strip : Bool)
    (hd : delim ≠ []) (hne : strip = false ∨ pyStrip content ≠ []) :
    StringTokenizer.parse content delim strip =
      .ok ((pySplit content delim).map (fun t => if strip then pyStrip t else t)) ∧
    (pySplit content delim).length = countOcc content delim + 1 ∧
    List.intercalate delim (pySplit content delim) = content := by
  refine ⟨?_, pySplit_length _ _, pySplit_intercalate _ _ hd⟩
  unfold StringTokenizer.parse
  rw [if_neg hd]
  cases strip with
  | false => simp
  | true =>
    rcases hne with h | h
    · cases h
    · simp [h]

/-- Witness for C8 at `parse("a,,c", ",")`: three tokens, the empty middle
token preserved. -/
theorem st_parse_split_spec_witness :
    StringTokenizer.parse (chars "a,,c") (chars ",") true =
      .ok ((pySplit (chars "a,,c") (chars ",")).map
        (fun t => if true then pyStrip t else t)) ∧
    (pySplit (chars "a,,c") (chars ",")).length = countOcc (chars "a,,c") (chars ",") + 1 ∧
    List.intercalate (chars ",") (pySplit (chars "a,,c") (chars ",")) = chars "a,,c" :=
  st_parse_split_spec (chars "a,,c") (chars ",") true (by decide) (Or.inr (by decide))

/-! ## Theorems: claim C6 — infer_type precedence -/

/-- C6: `infer_type` returns the variant of the first satisfied predicate
in the order `NONE, BOOLEAN, DATETIME, TIME, DATE, INTEGER, FLOAT, EMPTY`
with `STRING` as default; in particular `"20230101"` satisfies both the
date and the integer predicate and is classified as the earlier variant,
`DATE`. -/
theorem infer_type_first_match :
    (∀ (trim : Bool) (v : PyStr),
        PyString.infer_type v trim = firstMatch (precedenceList trim) .STRING v) ∧
    PyString.is_date_like (chars "20230101") true = true ∧
    PyString.is_int_like (chars "20230101") true = true ∧
    PyString.infer_type (chars "20230101") true = .DATE := by
  refine ⟨fun trim v => rfl, by decide, by decide, by decide⟩

/-! ## Theorems: claim C1 — incremental versus full profiling -/

theorem profileLoop_replicate (trim useInc : Bool) (cps : List Nat) (v : PyStr)
    (n : Nat) (rest : List PyStr) (tys : TypeCounts) (cnt : Nat)
    (hnc : ∀ k, 1 ≤ k → k ≤ n → (useInc && cps.contains (cnt + k)) = false) :
    profileLoop trim useInc cps (List.replicate n v ++ rest) tys cnt =
      profileLoop trim useInc cps rest (bumpN (PyString.infer_type v trim) n tys) (cnt + n) := by
  induction n generalizing tys cnt with
  | zero => simp [bumpN]
  | succ m ih =>
    rw [List.replicate_succ, List.cons_append]
    rw [profileLoop]
    have h1 : (useInc && cps.contains (cnt + 1)) = false := hnc 1 (by omega) (by omega)
    simp only [h1, Bool.false_eq_true, if_false]
    have hnc2 : ∀ k, 1 ≤ k → k ≤ m → (useInc && cps.contains (cnt + 1 + k)) = false := by
      intro k hk1 hk2
      have := hnc (k + 1) (by omega) (by omega)
      rw [show cnt + (k + 1) = cnt + 1 + k from by omega] at this
      exact this
    rw [ih (bumpCount (PyString.infer_type v trim) tys) (cnt + 1) hnc2]
    rw [show bumpN (PyString.infer_type v trim) (m + 1) tys
          = bumpN (PyString.infer_type v trim) m
              (bumpCount (PyString.infer_type v trim) tys) from rfl]
    rw [show cnt + 1 + m = cnt + (m + 1) from by omega]

theorem bumpN_STRING (n : Nat) (c : TypeCounts) :
    bumpN .STRING n c =
      ⟨c.nBool, c.nDate, c.nTime, c.nDatetime, c.nInt, c.nFloat,
       c.nStr + n, c.nEmpty, c.nNone⟩ := by
  induction n generalizing c with
  | zero => cases c; rfl
  | succ m ih =>
    rw [bumpN, ih]
    cases c
    simp [bumpCount]
    omega

theorem bumpN_INTEGER (n : Nat) (c : TypeCounts) :
    bumpN .INTEGER n c =
      ⟨c.nBool, c.nDate, c.nTime, c.nDatetime, c.nInt + n, c.nFloat,
       c.nStr, c.nEmpty, c.nNone⟩ := by
  induction n generalizing c with
  | zero => cases c; rfl
  | succ m ih =>
    rw [bumpN, ih]
    cases c
    simp [bumpCount]
    omega

/-- C1 (code bug): with 2500 plain strings followed by 7501 integer-like
strings, `profile_values` with incremental checking returns `STRING` (the
25% checkpoint sees only strings and the safe rule `STRING + EMPTY covers
all` fires) while the full pass returns `MIXED`, contradicting spec
property P3 and the function's own stated intent of terminating early only
when the final type is determined. -/
theorem profile_values_checkpoint_divergence :
    profile_values bigCounterexample true true = .STRING ∧
    profile_values bigCounterexample true false = .MIXED := by
  have hlen : bigCounterexample.length = 10001 := by
    unfold bigCounterexample
    rw [List.length_append, List.length_replicate, List.length_replicate]
  have hne : ¬ (bigCounterexample = []) := by
    intro h
    rw [h] at hlen
    simp at hlen
  have hinfA : PyString.infer_type (chars "a") true = .STRING := by decide
  have hinfOne : PyString.infer_type (chars "1") true = .INTEGER := by decide
  constructor
  · -- incremental path: early return at the checkpoint 2500
    have hsplit : bigCounterexample =
        List.replicate 2499 (chars "a") ++
          ((chars "a") :: List.replicate 7501 (chars "1")) := by
      unfold bigCounterexample
      rw [show (2500 : Nat) = 2499 + 1 from rfl, List.replicate_add]
      rw [List.append_assoc]
      rfl
    have hnc1 : ∀ k, 1 ≤ k → k ≤ 2499 →
        ((true : Bool) && List.contains [2500, 5000, 7500] (0 + k)) = false := by
      intro k hk1 hk2
      simp [List.contains]
      omega
    have hloopInc : profileLoop true true [2500, 5000, 7500] bigCounterexample zeroCounts 0
        = (⟨0, 0, 0, 0, 0, 0, 2500, 0, 0⟩, some .STRING) := by
      rw [hsplit]
      rw [profileLoop_replicate true true [2500, 5000, 7500] (chars "a") 2499 _ zeroCounts 0 hnc1]
      rw [hinfA, bumpN_STRING]
      rw [profileLoop]
      rw [hinfA]
      rw [show bumpCount .STRING
            ⟨zeroCounts.nBool, zeroCounts.nDate, zeroCounts.nTime, zeroCounts.nDatetime,
             zeroCounts.nInt, zeroCounts.nFloat, zeroCounts.nStr + 2499, zeroCounts.nEmpty,
             zeroCounts.nNone⟩ = ⟨0, 0, 0, 0, 0, 0, 2500, 0, 0⟩ from by decide]
      rw [show ((true : Bool) && List.contains [2500, 5000, 7500] (0 + 2499 + 1)) = true
            from by decide]
      rw [if_pos rfl]
      rw [if_neg (by decide :
            ¬ (0 < (⟨0, 0, 0, 0, 0, 0, 2500, 0, 0⟩ : TypeCounts).nInt +
                (⟨0, 0, 0, 0, 0, 0, 2500, 0, 0⟩ : TypeCounts).nFloat +
                (⟨0, 0, 0, 0, 0, 0, 2500, 0, 0⟩ : TypeCounts).nDate +
                (⟨0, 0, 0, 0, 0, 0, 2500, 0, 0⟩ : TypeCounts).nDatetime +
                (⟨0, 0, 0, 0, 0, 0, 2500, 0, 0⟩ : TypeCounts).nTime ∧
               0 < (⟨0, 0, 0, 0, 0, 0, 2500, 0, 0⟩ : TypeCounts).nStr))]
      rw [show determine_type_from_counts ⟨0, 0, 0, 0, 0, 0, 2500, 0, 0⟩ (0 + 2499 + 1) false
            = some .STRING from by decide]
    rw [profile_values, if_neg hne]
    simp only [hlen]
    norm_num [INCREMENTAL_TYPECHECK_THRESHOLD]
    rw [hloopInc]
  · -- full pass: MIXED
    have hsplit2 : bigCounterexample =
        List.replicate 2500 (chars "a") ++ (List.replicate 7501 (chars "1") ++ []) := by
      unfold bigCounterexample
      rw [List.append_nil]
    have hncF : ∀ (cnt : Nat) (n : Nat), ∀ k, 1 ≤ k → k ≤ n →
        ((false : Bool) && List.contains ([] : List Nat) (cnt + k)) = false := by
      intro cnt n k _ _
      rfl
    have hloopFull : profileLoop true false [] bigCounterexample zeroCounts 0
        = (⟨0, 0, 0, 0, 7501, 0, 2500, 0, 0⟩, none) := by
      rw [hsplit2]
      rw [profileLoop_replicate true false [] (chars "a") 2500 _ zeroCounts 0 (hncF 0 2500)]
      rw [hinfA, bumpN_STRING]
      rw [profileLoop_replicate true false [] (chars "1") 7501 [] _ (0 + 2500) (hncF (0 + 2500) 7501)]
      rw [hinfOne, bumpN_INTEGER]
      rw [profileLoop]
      decide
    rw [profile_values, if_neg hne]
    simp only [hlen]
    norm_num [INCREMENTAL_TYPECHECK_THRESHOLD]
    rw [hloopFull]
    rfl

/-! ## Theorems: claim C2 — converters and is_like predicates -/

/-- C2 (code bug): the float regex accepts the bare dot `"."`, so
`is_float_like(".")` is true, but CPython `float(".")` raises
`ValueError`; `to_float(".", default=d)` therefore raises instead of
returning a float or the default, contradicting its own docstring
("Float value or default if conversion fails"). -/
theorem to_float_dot_raises :
    PyString.is_float_like (chars ".") true = true ∧
    pyFloatParse (chars ".") = none ∧
    to_float (chars ".") none true =
      .error "ValueError: could not convert string to float" := by
  refine ⟨by decide, by decide, by decide⟩

/-! ## Theorems: claim C4 — parse_stream row accounting -/

theorem footerLoop_flatten (delim : PyStr) (strip : Bool) (bookend : Option PyStr)
    (bookendStrip : Bool) (F C : Nat) :
    ∀ (ls buf ch : List PyStr), buf.length ≤ F →
    (DsvHelper.footerLoop delim strip bookend bookendStrip F C ls buf ch).flatten =
      (ch ++ (buf ++ ls.map (stripLine strip)).take (buf.length + ls.length - F)).map
        (fun l => DsvHelper.parseLine l delim strip bookend bookendStrip) := by
  intro ls
  induction ls with
  | nil =>
    intro buf ch hbuf
    rw [DsvHelper.footerLoop]
    have htake : (buf ++ ([] : List PyStr).map (stripLine strip)).take
        (buf.length + ([] : List PyStr).length - F) = [] := by
      simp only [List.map_nil, List.append_nil, List.length_nil, Nat.add_zero]
      rw [show buf.length - F = 0 from by omega]
      exact List.take_zero buf
    rw [htake, List.append_nil]
    by_cases hch : ch = []
    · rw [if_pos hch, hch]
      simp
    · rw [if_neg hch]
      simp
  | cons l rest ih =>
    intro buf ch hbuf
    rw [DsvHelper.footerLoop]
    by_cases hover : F < (buf ++ [stripLine strip l]).length
    · rw [if_pos hover]
      have hbl : buf.length = F := by
        simp only [List.length_append, List.length_cons, List.length_nil] at hover
        omega
      have hbuf2 : buf ++ [stripLine strip l] =
          (buf ++ [stripLine strip l]).headD [] :: (buf ++ [stripLine strip l]).tail := by
        cases hb : buf ++ [stripLine strip l] with
        | nil => cases buf <;> simp at hb
        | cons a t => simp
      have htail_len : (buf ++ [stripLine strip l]).tail.length = F := by
        simp only [List.length_tail, List.length_append, List.length_cons, List.length_nil]
        omega
      have hcommon :
          ((ch ++ [(buf ++ [stripLine strip l]).headD []]) ++
              ((buf ++ [stripLine strip l]).tail ++ rest.map (stripLine strip)).take
                ((buf ++ [stripLine strip l]).tail.length + rest.length - F)).map
            (fun l2 => DsvHelper.parseLine l2 delim strip bookend bookendStrip) =
          (ch ++ (buf ++ (l :: rest).map (stripLine strip)).take
              (buf.length + (l :: rest).length - F)).map
            (fun l2 => DsvHelper.parseLine l2 delim strip bookend bookendStrip) := by
        congr 1
        rw [List.append_assoc]
        congr 1
        rw [htail_len, hbl]
        rw [show F + rest.length - F = rest.length from by omega]
        rw [List.length_cons]
        rw [show F + (rest.length + 1) - F = rest.length + 1 from by omega]
        rw [List.map_cons]
        rw [show buf ++ stripLine strip l :: rest.map (stripLine strip) =
              (buf ++ [stripLine strip l]) ++ rest.map (stripLine strip) from by simp]
        conv_rhs => rw [hbuf2]
        rfl
      by_cases hC : (ch ++ [(buf ++ [stripLine strip l]).headD []]).length = C
      · rw [if_pos hC]
        rw [List.flatten_cons]
        rw [ih (buf ++ [stripLine strip l]).tail [] (by rw [htail_len])]
        rw [List.nil_append, ← hcommon]
        simp [List.map_append]
      · rw [if_neg hC]
        rw [ih (buf ++ [stripLine strip l]).tail
          (ch ++ [(buf ++ [stripLine strip l]).headD []]) (by rw [htail_len])]
        exact hcommon
    · rw [if_neg hover]
      have hle : (buf ++ [stripLine strip l]).length ≤ F := by omega
      rw [ih (buf ++ [stripLine strip l]) ch hle]
      congr 2
      simp only [List.length_append, List.length_cons, List.length_nil, List.map_cons,
        List.append_assoc, List.singleton_append]
      rw [show buf.length + 1 + rest.length = buf.length + (rest.length + 1) from by omega]

theorem plainLoop_flatten (delim : PyStr) (strip : Bool) (bookend : Option PyStr)
    (bookendStrip : Bool) (C : Nat) :
    ∀ (ls ch : List PyStr),
    (DsvHelper.plainLoop delim strip bookend bookendStrip C ls ch).flatten =
      (ch ++ ls.map (stripLine strip)).map
        (fun l => DsvHelper.parseLine l delim strip bookend bookendStrip) := by
  intro ls
  induction ls with
  | nil =>
    intro ch
    rw [DsvHelper.plainLoop]
    by_cases hch : ch = []
    · rw [if_pos hch, hch]; simp
    · rw [if_neg hch]; simp
  | cons l rest ih =>
    intro ch
    rw [DsvHelper.plainLoop]
    by_cases hC : (ch ++ [stripLine strip l]).length = C
    · rw [if_pos hC]
      rw [List.flatten_cons, ih []]
      simp only [List.nil_append, List.map_cons]
      rw [← List.map_append]
      congr 1
      simp
    · rw [if_neg hC]
      rw [ih (ch ++ [stripLine strip l])]
      congr 1
      simp

/-- C4: with `chunk_size ≥ 100`, a non-empty delimiter and a file of
`total ≥ H + F` lines, the concatenation of the chunks yielded by
`parse_stream(skip_header_rows=H, skip_footer_rows=F)` is exactly the
parse of lines `H .. total − F` in source order — `total − H − F` rows,
and none of the last `F` lines is ever emitted. -/
theorem parse_stream_row_count (lines : List PyStr) (delim : PyStr) (strip : Bool)
    (bookend : Option PyStr) (bookendStrip : Bool) (H F C : Nat)
    (hd : delim ≠ []) (hC : 100 ≤ C) (hHF : H + F ≤ lines.length) :
    ∃ chunks, DsvHelper.parse_stream lines delim strip bookend bookendStrip H F C =
        .ok chunks ∧
      chunks.flatten =
        (((lines.drop H).map (stripLine strip)).take (lines.length - H - F)).map
          (fun l => DsvHelper.parseLine l delim strip bookend bookendStrip) ∧
      chunks.flatten.length = lines.length - H - F := by
  rw [DsvHelper.parse_stream]
  rw [if_neg hd, if_neg (by omega : ¬ C < 100), if_neg (by omega : ¬ lines.length < H)]
  have hdroplen : ((lines.drop H).map (stripLine strip)).length = lines.length - H := by
    simp
  by_cases hF : 0 < F
  · rw [if_pos hF]
    refine ⟨_, rfl, ?_, ?_⟩
    · rw [footerLoop_flatten delim strip bookend bookendStrip F C (lines.drop H) [] []
        (by simp)]
      simp only [List.nil_append, List.length_nil, Nat.zero_add, List.length_drop]
    · rw [footerLoop_flatten delim strip bookend bookendStrip F C (lines.drop H) [] []
        (by simp)]
      simp only [List.nil_append, List.length_nil, Nat.zero_add, List.length_drop,
        List.length_map, List.length_take]
      omega
  · rw [if_neg hF]
    have hF0 : F = 0 := by omega
    refine ⟨_, rfl, ?_, ?_⟩
    · rw [plainLoop_flatten delim strip bookend bookendStrip C (lines.drop H) []]
      rw [List.nil_append, hF0]
      rw [show lines.length - H - 0 = ((lines.drop H).map (stripLine strip)).length
            from by simp]
      rw [List.take_length]
    · rw [plainLoop_flatten delim strip bookend bookendStrip C (lines.drop H) []]
      simp only [List.nil_append, List.length_map, List.length_drop]
      omega

/-- Witness for C4 on a ten-line file with two header and two footer rows
skipped (scenario S5): six rows come out, in source order. -/
theorem parse_stream_row_count_witness :
    ∃ chunks, DsvHelper.parse_stream
        [chars "h1", chars "h2", chars "a", chars "b", chars "c", chars "d",
         chars "e", chars "f", chars "g1,x", chars "g2"]
        (chars ",") true none true 2 2 100 = .ok chunks ∧
      chunks.flatten =
        ((([chars "h1", chars "h2", chars "a", chars "b", chars "c", chars "d",
            chars "e", chars "f", chars "g1,x", chars "g2"].drop 2).map
              (stripLine true)).take 6).map
          (fun l => DsvHelper.parseLine l (chars ",") true none true) ∧
      chunks.flatten.length = 6 :=
  parse_stream_row_count
    [chars "h1", chars "h2", chars "a", chars "b", chars "c", chars "d",
     chars "e", chars "f", chars "g1,x", chars "g2"]
    (chars ",") true none true 2 2 100 (by decide) (by omega) (by decide)

/-! ## Theorems: claim C3 — streaming model and buffered rows -/

/-- C3 (code bug): on the stream of the repository's own
`test_streaming_model_skip_empty_rows` test, the model built with
`skip_empty_rows=True` and one header row yields five rows — the two
all-empty rows carried into the buffer during initialization are yielded
verbatim (unfiltered, and four cells wide against a three-name column
list); the test expects three rows. -/
theorem streaming_iter_yields_unfiltered_buffer :
    ∃ m, sInit emptyRowStream 1 1 true 100 = .ok m ∧
      (sIter m).1.length = 5 ∧
      (sIter m).1[1]? = some [[], [], [], []] ∧
      ((sIter m).1[1]?.getD []).all (fun c => decide (pyStrip c = [])) = true ∧
      m.columnNames.length = 3 :=
  ⟨(sInit emptyRowStream 1 1 true 100).toOption.get (by decide),
   by decide, by decide, by decide, by decide, by decide⟩

/-! ## Theorems: claim C5 — multi-row header merging -/

theorem getElem?_take_lt {α : Type} :
    ∀ (l : List α) (n j : Nat), j < n → (l.take n)[j]? = l[j]? := by
  intro l
  induction l with
  | nil => intro n j _; simp
  | cons a t ih =>
    intro n j h
    cases n with
    | zero => omega
    | succ m =>
      cases j with
      | zero => simp
      | succ i =>
        simp only [List.take_succ_cons, List.getElem?_cons_succ]
        exact ih m i (by omega)

theorem getElem?_append_left_own {α : Type} :
    ∀ (l₁ l₂ : List α) (j : Nat), j < l₁.length → (l₁ ++ l₂)[j]? = l₁[j]? := by
  intro l₁
  induction l₁ with
  | nil => intro l₂ j h; simp at h
  | cons a t ih =>
    intro l₂ j h
    cases j with
    | zero => simp
    | succ i =>
      simp only [List.cons_append, List.getElem?_cons_succ]
      exact ih l₂ i (by simpa using Nat.lt_of_succ_lt_succ h)

theorem zipWith_getElem?_some (f : PyStr → PyStr → PyStr) :
    ∀ (as bs : List PyStr) (j : Nat), j < as.length → j < bs.length →
    (List.zipWith f as bs)[j]? = some (f (as.getD j []) (bs.getD j [])) := by
  intro as
  induction as with
  | nil => intro bs j h _; simp at h
  | cons a t ih =>
    intro bs j h1 h2
    cases bs with
    | nil => simp at h2
    | cons b u =>
      cases j with
      | zero => simp [List.getD]
      | succ i =>
        simp only [List.zipWith_cons_cons, List.getElem?_cons_succ]
        rw [ih u i (by simpa using Nat.lt_of_succ_lt_succ h1)
          (by simpa using Nat.lt_of_succ_lt_succ h2)]
        simp [List.getD]

theorem getD_of_getElem?_some {l : List PyStr} {j : Nat} {v : PyStr}
    (h : l[j]? = some v) : l.getD j [] = v := by
  rw [List.getD_eq_getElem?_getD, h]
  rfl

theorem getElem?_eq_some_getD (l : List PyStr) (j : Nat) (h : j < l.length) :
    l[j]? = some (l.getD j []) := by
  rw [List.getElem?_eq_getElem h]
  congr 1
  exact (List.getD_eq_getElem l [] h).symm

theorem getD_mem (l : List PyStr) (j : Nat) (h : j < l.length) : l.getD j [] ∈ l := by
  rw [List.getD_eq_getElem l [] h]
  exact List.getElem_mem h

theorem zipWith_mergeCell_replicate :
    ∀ (l : List PyStr), List.zipWith mergeCell (List.replicate l.length []) l = l := by
  intro l
  induction l with
  | nil => rfl
  | cons x xs ih =>
    simp only [List.length_cons, List.replicate_succ, List.zipWith_cons_cons]
    rw [ih, show mergeCell [] x = x from by simp [mergeCell]]

theorem mergeStep_nil (row : List PyStr) : mergeStep [] row = row := by
  unfold mergeStep
  simp only [List.nil_append, List.length_nil, Nat.sub_zero]
  rw [show (List.replicate row.length ([] : PyStr)).take row.length
        = List.replicate row.length ([] : PyStr) from by
    rw [List.take_replicate]
    simp]
  rw [zipWith_mergeCell_replicate]
  rw [show (List.replicate row.length ([] : PyStr)).drop row.length = [] from by
    rw [List.drop_replicate]
    simp]
  simp

theorem mergeStep_length (acc row : List PyStr) (h : row.length ≤ acc.length) :
    (mergeStep acc row).length = acc.length := by
  unfold mergeStep
  rw [show row.length - acc.length = 0 from by omega]
  simp only [List.replicate_zero, List.append_nil, List.length_append,
    List.length_zipWith, List.length_take, List.length_drop]
  omega

theorem mergeStep_getElem (acc row : List PyStr) (h : row.length ≤ acc.length)
    (j : Nat) (hj : j < row.length) :
    (mergeStep acc row)[j]? = some (mergeCell (acc.getD j []) (row.getD j [])) := by
  unfold mergeStep
  rw [show row.length - acc.length = 0 from by omega]
  simp only [List.replicate_zero, List.append_nil]
  rw [getElem?_append_left_own _ _ j (by
    simp only [List.length_zipWith, List.length_take]
    omega)]
  rw [zipWith_getElem?_some mergeCell (acc.take row.length) row j
    (by simp only [List.length_take]; omega) hj]
  have htake : (acc.take row.length).getD j [] = acc.getD j [] := by
    rw [List.getD_eq_getElem?_getD, List.getD_eq_getElem?_getD,
      getElem?_take_lt _ _ _ hj]
  rw [htake]

theorem mergeFold_length (L : Nat) :
    ∀ (rows : List (List PyStr)) (acc : List PyStr),
    acc.length = L → (∀ r ∈ rows, r.length = L) →
    (rows.foldl mergeStep acc).length = L := by
  intro rows
  induction rows with
  | nil => intro acc h _; simpa using h
  | cons r rs ih =>
    intro acc hacc hr
    rw [List.foldl_cons]
    refine ih (mergeStep acc r) ?_ (fun r2 hm => hr r2 (by simp [hm]))
    rw [mergeStep_length acc r (by rw [hacc, hr r (by simp)])]
    exact hacc

theorem mergeFold_getElem (L : Nat) :
    ∀ (rows : List (List PyStr)) (acc : List PyStr),
    acc.length = L → (∀ r ∈ rows, r.length = L) → ∀ j, j < L → acc.getD j [] ≠ [] →
    (rows.foldl mergeStep acc)[j]? =
      some (joinFrom (acc.getD j []) (rows.map (fun r => r.getD j []))) := by
  intro rows
  induction rows with
  | nil =>
    intro acc hacc _ j hj _
    simp only [List.foldl_nil, List.map_nil]
    rw [show joinFrom (acc.getD j []) [] = acc.getD j [] from rfl]
    exact getElem?_eq_some_getD acc j (by omega)
  | cons r rs ih =>
    intro acc hacc hr j hj hne
    rw [List.foldl_cons, List.map_cons]
    have hrlen : r.length = L := hr r (by simp)
    have hstepD : (mergeStep acc r).getD j [] = mergeCell (acc.getD j []) (r.getD j []) :=
      getD_of_getElem?_some
        (mergeStep_getElem acc r (by rw [hacc, hrlen]) j (by rw [hrlen]; exact hj))
    have hcell : mergeCell (acc.getD j []) (r.getD j []) =
        acc.getD j [] ++ '_' :: r.getD j [] := by
      unfold mergeCell
      rw [if_neg hne]
    have hlen2 : (mergeStep acc r).length = L := by
      rw [mergeStep_length acc r (by rw [hacc, hrlen])]
      exact hacc
    rw [ih (mergeStep acc r) hlen2 (fun r2 hm => hr r2 (by simp [hm])) j hj
      (by
        rw [hstepD, hcell]
        cases hval : acc.getD j [] with
        | nil => exact absurd hval hne
        | cons x xs => simp)]
    rw [hstepD, hcell]
    rfl

theorem joinFrom_intercalate :
    ∀ (cells : List PyStr) (a : PyStr),
    joinFrom a cells = List.intercalate ['_'] (a :: cells) := by
  intro cells
  induction cells with
  | nil => intro a; simp [joinFrom, List.intercalate]
  | cons c cs ih =>
    intro a
    rw [show joinFrom a (c :: cs) = joinFrom (a ++ '_' :: c) cs from rfl]
    rw [ih]
    rw [intercalate_cons_of_ne_nil ['_'] a (c :: cs) (by simp)]
    cases cs with
    | nil => simp [List.intercalate, List.intersperse]
    | cons d ds =>
      rw [intercalate_cons_of_ne_nil ['_'] (a ++ '_' :: c) (d :: ds) (by simp)]
      rw [intercalate_cons_of_ne_nil ['_'] c (d :: ds) (by simp)]
      simp [List.append_assoc]

theorem joinFrom_ne_nil :
    ∀ (cells : List PyStr) (a : PyStr), a ≠ [] → joinFrom a cells ≠ [] := by
  intro cells
  induction cells with
  | nil => intro a h; exact h
  | cons c cs ih =>
    intro a h
    rw [show joinFrom a (c :: cs) = joinFrom (a ++ '_' :: c) cs from rfl]
    refine ih _ ?_
    cases a with
    | nil => exact absurd rfl h
    | cons x xs => simp

theorem joinFrom_ws_free :
    ∀ (cells : List PyStr) (a : PyStr),
    (∀ ch ∈ a, isPySpace ch = false) →
    (∀ c ∈ cells, ∀ ch ∈ c, isPySpace ch = false) →
    ∀ ch ∈ joinFrom a cells, isPySpace ch = false := by
  intro cells
  induction cells with
  | nil => intro a ha _ ch hch; exact ha ch hch
  | cons c cs ih =>
    intro a ha hc ch hch
    rw [show joinFrom a (c :: cs) = joinFrom (a ++ '_' :: c) cs from rfl] at hch
    refine ih (a ++ '_' :: c) ?_ (fun c2 hm => hc c2 (by simp [hm])) ch hch
    intro ch2 hm
    rcases List.mem_append.mp hm with h1 | h2
    · exact ha ch2 h1
    · rcases List.mem_cons.mp h2 with h3 | h4
      · rw [h3]
        decide
      · exact hc c (by simp) ch2 h4

theorem squeezeWsAux_id :
    ∀ (cs : PyStr) (b : Bool), (∀ c ∈ cs, isPySpace c = false) →
    squeezeWsAux b cs = cs := by
  intro cs
  induction cs with
  | nil => intro b _; rfl
  | cons c rest ih =>
    intro b h
    unfold squeezeWsAux
    rw [if_neg (by rw [h c (by simp)]; simp)]
    rw [ih false (fun c2 hm => h c2 (by simp [hm]))]

theorem dropWhile_eq_self_of_all {p : Char → Bool} :
    ∀ (l : PyStr), (∀ c ∈ l, p c = false) → l.dropWhile p = l := by
  intro l h
  cases l with
  | nil => rfl
  | cons a t =>
    rw [List.dropWhile_cons]
    rw [h a (by simp)]
    simp

theorem pyStrip_id (cs : PyStr) (h : ∀ c ∈ cs, isPySpace c = false) : pyStrip cs = cs := by
  unfold pyStrip
  rw [dropWhile_eq_self_of_all cs h]
  rw [dropWhile_eq_self_of_all cs.reverse (fun c hm => h c (List.mem_reverse.mp hm))]
  exact List.reverse_reverse cs

theorem normName_id (n : PyStr) (h : ∀ c ∈ n, isPySpace c = false) : normName n = n := by
  unfold normName squeezeWs
  rw [squeezeWsAux_id n false h]
  exact pyStrip_id n h

theorem filter_nonempty_id :
    ∀ (cells : List PyStr), (∀ c ∈ cells, c ≠ []) →
    cells.filter (fun c => !c.isEmpty) = cells := by
  intro cells
  induction cells with
  | nil => intro _; rfl
  | cons c cs ih =>
    intro h
    rw [List.filter_cons]
    rw [show (!c.isEmpty) = true from by
      cases c with
      | nil => exact absurd rfl (h [] (by simp))
      | cons x xs => rfl]
    rw [if_pos rfl]
    rw [ih (fun c2 hm => h c2 (by simp [hm]))]

theorem enum_map_getElem? (l : List PyStr) (f : Nat × PyStr → PyStr) (j : Nat) :
    (l.enum.map f)[j]? = (l[j]?).map (fun v => f (j, v)) := by
  rw [List.getElem?_map, List.getElem?_enum, Option.map_map]
  rfl

theorem buildColumnNames_getElem (merged : List PyStr) (columns j : Nat)
    (hj : j < merged.length)
    (hid : ∀ c ∈ merged, normName c = c)
    (hne : ∀ c ∈ merged, c ≠ []) :
    (buildColumnNames [merged] columns)[j]? = merged[j]? := by
  simp only [buildColumnNames]
  have hmap : merged.map normName = merged := by
    calc merged.map normName = merged.map id := List.map_congr_left hid
      _ = merged := List.map_id merged
  rw [hmap]
  have hmne : merged ≠ [] := by
    intro hcon
    rw [hcon] at hj
    simp at hj
  rw [if_neg hmne]
  obtain ⟨v, hv⟩ : ∃ v, merged[j]? = some v := by
    rw [List.getElem?_eq_getElem hj]
    exact ⟨_, rfl⟩
  have hvm : v ∈ merged := List.mem_iff_getElem?.mpr ⟨j, hv⟩
  rw [enum_map_getElem?]
  rw [getElem?_append_left_own _ _ j hj]
  rw [hv]
  simp only [Option.map_some']
  rw [if_neg (hne v hvm)]

theorem tdmInit_columnNames (data : List Row) (hr multi : Nat) (se : Bool) (m : TDM)
    (hinit : tdmInit data hr multi se = .ok m) :
    m.columnNames = buildColumnNames
      (if 1 < hr ∧ 1 < multi then
        [((if 0 < hr then data.take hr else []).take multi).foldl mergeStep []]
       else (if 0 < hr then data.take hr else []))
      (match (if 0 < hr then normalize_data_model (data.drop hr) se
              else normalize_data_model data se) with
        | r :: _ => r.length
        | [] => 0) := by
  unfold tdmInit at hinit
  split at hinit
  · cases hinit
  · split at hinit
    · cases hinit
    · split at hinit
      · cases hinit
      · injection hinit with h
        rw [← h]

/-- C5 (amended): when the caller also sets `multi_row_headers > 1` (here
equal to `header_rows`) and every header cell is non-empty and free of
whitespace, the column name at each position within the header width is
the underscore-join of that position's header cells, top to bottom — which
coincides with the claim's join of the non-empty cells. -/
theorem tdm_merged_header_names (hrows drows : List Row) (L : Nat) (se : Bool) (j : Nat)
    (hhr : 2 ≤ hrows.length)
    (hlenr : ∀ r ∈ hrows, r.length = L)
    (hcells : ∀ r ∈ hrows, ∀ c ∈ r, c ≠ [])
    (hws : ∀ r ∈ hrows, ∀ c ∈ r, ∀ ch ∈ c, isPySpace ch = false)
    (hj : j < L) :
    ∃ m, tdmInit (hrows ++ drows) hrows.length hrows.length se = .ok m ∧
      m.columnNames[j]? = some (specJoinNonEmpty (hrows.map (fun r => r.getD j []))) := by
  have hlen0 : ¬ ((hrows ++ drows).length = 0) := by
    simp only [List.length_append]
    omega
  have hg2 : ¬ (0 < hrows.length ∧ hrows.length < hrows.length) := by omega
  have hg3 : ¬ (0 < hrows.length ∧ hrows.length = 0) := by omega
  obtain ⟨m, hm⟩ : ∃ m, tdmInit (hrows ++ drows) hrows.length hrows.length se = .ok m := by
    unfold tdmInit
    rw [if_neg hlen0, if_neg hg2, if_neg hg3]
    exact ⟨_, rfl⟩
  refine ⟨m, hm, ?_⟩
  rw [tdmInit_columnNames _ _ _ _ _ hm]
  have h0 : 0 < hrows.length := by omega
  have h1 : 1 < hrows.length := by omega
  rw [if_pos (And.intro h1 h1), if_pos h0, if_pos h0]
  rw [List.take_left, List.take_length]
  obtain ⟨r0, rs, rfl⟩ : ∃ r0 rs, hrows = r0 :: rs := by
    cases hrows with
    | nil => simp at hhr
    | cons a t => exact ⟨a, t, rfl⟩
  have hr0len : r0.length = L := hlenr r0 (by simp)
  have hrs : ∀ r ∈ rs, r.length = L := fun r hm2 => hlenr r (by simp [hm2])
  have hfoldcons : (r0 :: rs).foldl mergeStep [] = rs.foldl mergeStep r0 := by
    rw [List.foldl_cons, mergeStep_nil]
  have hmergedlen : (rs.foldl mergeStep r0).length = L := mergeFold_length L rs r0 hr0len hrs
  have key : ∀ k, k < L → (rs.foldl mergeStep r0)[k]? =
      some (joinFrom (r0.getD k []) (rs.map (fun r => r.getD k []))) := by
    intro k hk
    exact mergeFold_getElem L rs r0 hr0len hrs k hk
      (hcells r0 (by simp) _ (getD_mem r0 k (by omega)))
  have hprops : ∀ c ∈ rs.foldl mergeStep r0, c ≠ [] ∧ ∀ ch ∈ c, isPySpace ch = false := by
    intro c hmem
    obtain ⟨k, hck⟩ := List.mem_iff_getElem?.mp hmem
    have hkL : k < L := by
      have hklt : k < (rs.foldl mergeStep r0).length := by
        by_contra hcon
        rw [List.getElem?_eq_none (by omega)] at hck
        cases hck
      rw [hmergedlen] at hklt
      exact hklt
    have hc : c = joinFrom (r0.getD k []) (rs.map (fun r => r.getD k [])) := by
      have h2 := key k hkL
      rw [hck] at h2
      exact Option.some.inj h2
    constructor
    · rw [hc]
      exact joinFrom_ne_nil _ _ (hcells r0 (by simp) _ (getD_mem r0 k (by omega)))
    · rw [hc]
      refine joinFrom_ws_free _ _ (hws r0 (by simp) _ (getD_mem r0 k (by omega))) ?_
      intro c2 hm2
      obtain ⟨r, hrm, hrc⟩ := List.mem_map.mp hm2
      rw [← hrc]
      exact hws r (by simp [hrm]) _ (getD_mem r k (by rw [hrs r hrm]; exact hkL))
  rw [hfoldcons]
  rw [buildColumnNames_getElem (rs.foldl mergeStep r0) _ j
    (by rw [hmergedlen]; exact hj)
    (fun c hmem => normName_id c (hprops c hmem).2)
    (fun c hmem => (hprops c hmem).1)]
  rw [key j hj]
  rw [joinFrom_intercalate]
  unfold specJoinNonEmpty
  rw [List.map_cons]
  rw [filter_nonempty_id]
  intro c hmem
  rcases List.mem_cons.mp hmem with h2 | h2
  · rw [h2]
    exact hcells r0 (by simp) _ (getD_mem r0 j (by omega))
  · obtain ⟨r, hrm, hrc⟩ := List.mem_map.mp h2
    rw [← hrc]
    exact hcells r (by simp [hrm]) _ (getD_mem r j (by rw [hrs r hrm]; exact hj))

/-- C5 counterexample: header rows `["A","B"]` and `["","C"]` merged with
`header_rows = multi_row_headers = 2` give the column names
`["A_", "B_C"]` — the empty cell in the second header row still
contributes a trailing underscore, where the claim demands `"A"` (the
underscore-join of the non-empty cells alone). -/
theorem tdm_merged_header_names_counterexample :
    ((tdmInit [[chars "A", chars "B"], [[], chars "C"], [chars "x", chars "y"]] 2 2
        true).map (fun m => m.columnNames)) = .ok [chars "A_", chars "B_C"] ∧
    chars "A_" ≠ specJoinNonEmpty [chars "A", []] := by
  refine ⟨by decide, by decide⟩

/-- Witness for C5 on the spec's S3 example (with
`multi_row_headers = 2`): position 0 is named `Employee_First`. -/
theorem tdm_merged_header_names_witness :
    ∃ m, tdmInit (employeeHeaderRows ++ [[chars "John", chars "Doe", chars "NY"]])
        employeeHeaderRows.length employeeHeaderRows.length true = .ok m ∧
      m.columnNames[0]? =
        some (specJoinNonEmpty (employeeHeaderRows.map (fun r => r.getD 0 []))) :=
  tdm_merged_header_names employeeHeaderRows [[chars "John", chars "Doe", chars "NY"]]
    3 true 0 (by decide) (by decide) (by decide) (by decide) (by decide)

/-! ## Theorems: claim C7 — duplicate column names resolve to the last index -/

theorem find?_append_first {α : Type} (p : α → Bool) (l₁ l₂ : List α) :
    (l₁ ++ l₂).find? p =
      match l₁.find? p with
      | some a => some a
      | none => l₂.find? p := by
  induction l₁ with
  | nil => simp
  | cons a l ih =>
    by_cases h : p a = true
    · rw [List.cons_append, List.find?_cons_of_pos _ h, List.find?_cons_of_pos _ h]
    · rw [List.cons_append, List.find?_cons_of_neg _ h, List.find?_cons_of_neg _ h, ih]

theorem dictGet_mkIndexPairs (names : List PyStr) (n : PyStr) :
    ∀ i, dictGet (mkIndexPairs names i) n = (lastIdx? names n).map (· + i) := by
  induction names with
  | nil => intro i; rfl
  | cons x rest ih =>
    intro i
    unfold dictGet mkIndexPairs
    rw [List.reverse_cons]
    rw [find?_append_first]
    cases hl : lastIdx? rest n with
    | some j =>
      have hrec := ih (i + 1)
      unfold dictGet at hrec
      rw [hl] at hrec
      simp only [Option.map_some'] at hrec
      obtain ⟨pr, hpr, hsnd⟩ := Option.map_eq_some'.mp hrec
      rw [hpr]
      rw [show lastIdx? (x :: rest) n = some (j + 1) from by
        unfold lastIdx?
        rw [hl]]
      simp only [Option.map_some']
      rw [hsnd]
      congr 1
      omega
    | none =>
      have hrec := ih (i + 1)
      unfold dictGet at hrec
      rw [hl] at hrec
      have hnone : (mkIndexPairs rest (i + 1)).reverse.find?
          (fun p => decide (p.1 = n)) = none := by
        cases hfind : (mkIndexPairs rest (i + 1)).reverse.find?
            (fun p => decide (p.1 = n)) with
        | none => rfl
        | some pr =>
          rw [hfind] at hrec
          simp at hrec
      rw [hnone]
      rw [show lastIdx? (x :: rest) n =
            (if x = n then some 0 else none) from by
        unfold lastIdx?
        rw [hl]]
      by_cases hx : x = n
      · rw [if_pos hx]
        rw [List.find?_cons_of_pos _ (by simpa using hx)]
        simp
      · rw [if_neg hx]
        rw [List.find?_cons_of_neg _ (by simpa using hx)]
        rfl

theorem tdmInit_pairs (data : List Row) (hr multi : Nat) (se : Bool) (m : TDM)
    (hinit : tdmInit data hr multi se = .ok m) :
    m.columnIndexPairs = mkIndexPairs m.columnNames 0 := by
  unfold tdmInit at hinit
  split at hinit
  · cases hinit
  · split at hinit
    · cases hinit
    · split at hinit
      · cases hinit
      · injection hinit with h
        rw [← h]

theorem sInit_pairs (stream : List Chunk) (hr multi scs : Nat) (se : Bool)
    (m : SModel) (hinit : sInit stream hr multi se scs = .ok m) :
    m.columnIndexPairs = mkIndexPairs m.columnNames 0 := by
  unfold sInit at hinit
  split at hinit
  · cases hinit
  · split at hinit
    · cases hinit
    · split at hinit
      · cases hinit
      · split at hinit
        · injection hinit with h
          rw [← h]
        · injection hinit with h
          rw [← h]

theorem dictGetV_map (pairs : List (PyStr × Nat)) (f : Nat → PyStr) (n : PyStr) :
    dictGetV (pairs.map (fun p => (p.1, f p.2))) n = (dictGet pairs n).map f := by
  unfold dictGetV dictGet
  rw [← List.map_reverse]
  rw [List.find?_map]
  rw [show ((fun p : PyStr × PyStr => decide (p.1 = n)) ∘
        (fun p : PyStr × Nat => (p.1, f p.2)))
      = (fun p : PyStr × Nat => decide (p.1 = n)) from rfl]
  cases List.find? (fun p : PyStr × Nat => decide (p.1 = n)) pairs.reverse with
  | none => rfl
  | some p => rfl

theorem mkIndexPairs_eq_range :
    ∀ (names : List PyStr) (i : Nat),
    mkIndexPairs names i =
      (List.range names.length).map (fun k => (names.getD k [], k + i)) := by
  intro names
  induction names with
  | nil => intro i; rfl
  | cons x rest ih =>
    intro i
    rw [show mkIndexPairs (x :: rest) i = (x, i) :: mkIndexPairs rest (i + 1) from rfl]
    rw [List.length_cons, List.range_succ_eq_map, List.map_cons, List.map_map]
    rw [ih (i + 1)]
    congr 1
    · simp
    · apply List.map_congr_left
      intro k hk
      simp only [Function.comp_apply, List.getD_cons_succ]
      congr 1
      omega

theorem rowDict_eq_map (m : TDM) (index : Nat)
    (hcols : m.columnNames.length = m.columns) :
    rowDict m index = (mkIndexPairs m.columnNames 0).map
      (fun p => (p.1, (m.data.getD index []).getD p.2 [])) := by
  unfold rowDict
  rw [mkIndexPairs_eq_range, List.map_map]
  rw [← hcols]
  rfl

theorem rowDict_lookup (m : TDM) (n : PyStr) (j : Nat)
    (hcols : m.columnNames.length = m.columns)
    (hlast : lastIdx? m.columnNames n = some j) (index : Nat) :
    dictGetV (rowDict m index) n = some ((m.data.getD index []).getD j []) := by
  rw [rowDict_eq_map m index hcols]
  rw [dictGetV_map (mkIndexPairs m.columnNames 0)
    (fun k => (m.data.getD index []).getD k []) n]
  rw [dictGet_mkIndexPairs m.columnNames n 0, hlast]
  simp

/-- C7 (amended): duplicate column names resolve to the index of their
LAST occurrence, in the in-memory and the streaming model alike — the
dict comprehension `{name: i for i, name in enumerate(column_names)}`
lets later assignments overwrite earlier ones.  `column_index` of both
models returns the last-occurrence index; the row dictionary of the
in-memory model's `row()` keyed by the name gives the cell at that index
(whenever the dictionary covers the whole names list, i.e. the names list
is exactly `columns` long); and the streaming model's `cell_value` reads
the cell at that index of the filled buffer. -/
theorem tdm_column_index_last (data : List Row) (hr multi : Nat) (se : Bool)
    (m : TDM) (n : PyStr) (j : Nat)
    (stream : List Chunk) (shr smulti scs : Nat) (sse : Bool) (sm : SModel)
    (sn : PyStr) (sj : Nat)
    (hinit : tdmInit data hr multi se = .ok m)
    (hlast : lastIdx? m.columnNames n = some j)
    (hsinit : sInit stream shr smulti sse scs = .ok sm)
    (hslast : lastIdx? sm.columnNames sn = some sj) :
    column_index m n = .ok j ∧
    (m.columnNames.length = m.columns →
      ∀ index, dictGetV (rowDict m index) n =
        some ((m.data.getD index []).getD j [])) ∧
    s_column_index sm sn = .ok sj ∧
    (∀ ridx, ridx < (fill_buffer sm).buffer.length →
      cell_value sm sn ridx =
        match ((fill_buffer sm).buffer.getD ridx [])[sj]? with
        | some v => .ok (v, fill_buffer sm)
        | none => .error "IndexError") := by
  have hd : dictGet m.columnIndexPairs n = some j := by
    rw [tdmInit_pairs data hr multi se m hinit]
    rw [dictGet_mkIndexPairs m.columnNames n 0]
    rw [hlast]
    simp
  have hsd : dictGet sm.columnIndexPairs sn = some sj := by
    rw [sInit_pairs stream shr smulti scs sse sm hsinit]
    rw [dictGet_mkIndexPairs sm.columnNames sn 0]
    rw [hslast]
    simp
  refine ⟨?_, ?_, ?_, ?_⟩
  · unfold column_index
    rw [hd]
  · intro hcols index
    exact rowDict_lookup m n j hcols hlast index
  · unfold s_column_index
    rw [hsd]
  · intro ridx hrange
    unfold cell_value
    rw [hsd]
    show (if (fill_buffer sm).buffer.length ≤ ridx then
            Except.error "Row index out of range"
          else match ((fill_buffer sm).buffer.getD ridx [])[sj]? with
            | some v => Except.ok (v, fill_buffer sm)
            | none => Except.error "IndexError") = _
    rw [if_neg (by omega)]

/-- C7 counterexample: with data `[["x","x"],["1","2"]]` and one header
row the column names are `["x","x"]`; looking up `"x"` yields index 1
(the last occurrence), not the first-occurrence index 0 the claim
promises. -/
theorem tdm_column_index_first_counterexample :
    ((tdmInit [[chars "x", chars "x"], [chars "1", chars "2"]] 1 1 true).bind
      (fun m => column_index m (chars "x"))) = .ok 1 ∧
    (Except.ok 1 : Except String Nat) ≠ .ok 0 := by
  refine ⟨by decide, by decide⟩

/-- Witness for C7 on the duplicate-name tables: both models resolve
`"x"` to index 1 (the last occurrence), the in-memory row dictionary
returns the second cell, and the streaming `cell_value` reads column 1 of
the filled buffer. -/
theorem tdm_column_index_last_witness :
    column_index dupNameModel (chars "x") = .ok 1 ∧
    (dupNameModel.columnNames.length = dupNameModel.columns →
      ∀ index, dictGetV (rowDict dupNameModel index) (chars "x") =
        some ((dupNameModel.data.getD index []).getD 1 [])) ∧
    s_column_index dupNameSModel (chars "x") = .ok 1 ∧
    (∀ ridx, ridx < (fill_buffer dupNameSModel).buffer.length →
      cell_value dupNameSModel (chars "x") ridx =
        match ((fill_buffer dupNameSModel).buffer.getD ridx [])[1]? with
        | some v => .ok (v, fill_buffer dupNameSModel)
        | none => .error "IndexError") :=
  tdm_column_index_last dupNameData 1 1 true dupNameModel (chars "x") 1
    [dupNameData] 1 1 100 true dupNameSModel (chars "x") 1
    (by decide) (by decide) (by decide) (by decide)

/-! ## Theorems: claim C10 — clear_buffer frame property -/

/-- C10: `clear_buffer` empties the internal row buffer and changes
nothing else — column names, the name-to-index map, cached column types,
header data, row count and the upstream stream are untouched; a full
iteration of the original model yields its buffered rows followed by the
stream-phase rows, so iterating after `clear_buffer` yields exactly the
stream-phase rows and the formerly buffered rows are never yielded. -/
theorem clear_buffer_frame (m : SModel) :
    (clear_buffer m).buffer = [] ∧
    (clear_buffer m).columnNames = m.columnNames ∧
    (clear_buffer m).columnIndexPairs = m.columnIndexPairs ∧
    (clear_buffer m).columnTypes = m.columnTypes ∧
    (clear_buffer m).headerData = m.headerData ∧
    (clear_buffer m).rowCount = m.rowCount ∧
    (clear_buffer m).stream = m.stream ∧
    (sIter m).1 = m.buffer ++ (sIter (clear_buffer m)).1 ∧
    (sIter (clear_buffer m)).1 =
      (streamPhase m.skipEmptyRows m.stream m.columnNames m.columnIndexPairs).1 :=
  ⟨rfl, rfl, rfl, rfl, rfl, rfl, rfl, rfl, rfl⟩

end Splurge
